import Mathlib

/-!
# Verification of the animation shorthand compaction engine

A shallow embedding of `src/properties/animation.rs` and
`src/rules/keyframes.rs`: the animation shorthand value type with its
order-independent parser and eliding printer, the stateful
`AnimationHandler` accumulator with its flush/merge procedure, and the
color-fallback duplication of `KeyframesRule::get_fallbacks`.

Value grammars (times, easing functions, enumerated keywords) are external
collaborators of this code; they are modelled at the CSS component-token
level, one token per component, with parse and serialize contracts that
follow the source's usage (`cssparser` keyword matching is ASCII
case-insensitive; derived `PartialEq` is structural).
-/

namespace AnimationSpec

set_option maxRecDepth 10000

/-- Vendor prefix bit-set (`VendorPrefix` bitflags: `None`, `WebKit`,
`Moz`, `Ms`, `O`); `unprefixed` is the `VendorPrefix::None` bit. -/
structure VendorPrefix where
  unprefixed : Bool
  webkit : Bool
  moz : Bool
  ms : Bool
  o : Bool
deriving DecidableEq, Repr

def VendorPrefix.empty : VendorPrefix := ⟨false, false, false, false, false⟩

def vpNone : VendorPrefix := ⟨true, false, false, false, false⟩

def vpWebKit : VendorPrefix := ⟨false, true, false, false, false⟩

def vpMoz : VendorPrefix := ⟨false, false, true, false, false⟩

/-- Bitwise or (`|=`). -/
def VendorPrefix.union (a b : VendorPrefix) : VendorPrefix :=
  ⟨a.unprefixed || b.unprefixed, a.webkit || b.webkit, a.moz || b.moz, a.ms || b.ms, a.o || b.o⟩

/-- Bitwise and (`&`). -/
def VendorPrefix.inter (a b : VendorPrefix) : VendorPrefix :=
  ⟨a.unprefixed && b.unprefixed, a.webkit && b.webkit, a.moz && b.moz, a.ms && b.ms, a.o && b.o⟩

/-- Bitflags `remove`: clear the bits of `b`. -/
def VendorPrefix.remove (a b : VendorPrefix) : VendorPrefix :=
  ⟨a.unprefixed && !b.unprefixed, a.webkit && !b.webkit, a.moz && !b.moz,
   a.ms && !b.ms, a.o && !b.o⟩

def VendorPrefix.isEmpty (a : VendorPrefix) : Bool :=
  !a.unprefixed && !a.webkit && !a.moz && !a.ms && !a.o

/-- Bitflags `contains`: all bits of `b` are present in `a`. -/
def VendorPrefix.contains (a b : VendorPrefix) : Bool :=
  a.inter b == b

/-- The prefix features consulted by the animation handler
(`Feature::Animation`, `Feature::AnimationName`, ...). -/
inductive Feature where
  | animation
  | animationName
  | animationDuration
  | animationTimingFunction
  | animationIterationCount
  | animationDirection
  | animationPlayState
  | animationDelay
  | animationFillMode
deriving DecidableEq, Repr

/-- Modelled from the spec: browser targets are consumed only through the
prefix-expansion query `Feature::prefixes_for(targets)` ("re-expanded to
the concrete prefixes required by the configured browser targets"), so a
target set is modelled as that query itself. `prefixes.rs` is not under
`src/`. -/
structure Browsers where
  prefixesFor : Feature → VendorPrefix

/- ===================== value types ===================== -/

/-- `AnimationName` (src/properties/animation.rs lines 27-37). -/
inductive AnimationName where
  | none
  | ident (s : String)
  | custom (s : String)
deriving DecidableEq, Repr

/-- ASCII lower-casing of a character code (`eq_ignore_ascii_case`). -/
def charLowerCode (c : Char) : Nat :=
  if 65 ≤ c.toNat ∧ c.toNat ≤ 90 then c.toNat + 32 else c.toNat

def listIEq : List Char → List Char → Bool
  | [], [] => true
  | c :: cs, d :: ds => (charLowerCode c == charLowerCode d) && listIEq cs ds
  | _, _ => false

/-- ASCII case-insensitive string equality, the matching discipline of
`match_ignore_ascii_case!` / `expect_ident_matching`. -/
def strIEq (a b : String) : Bool := listIEq a.data b.data

/-- The CSS-wide keywords excluded from bare animation names
(src lines 48-51 and 79-86); matching is ASCII case-insensitive. -/
def cssWideKeyword (s : String) : Bool :=
  strIEq s "none" || strIEq s "initial" || strIEq s "inherit" || strIEq s "unset" ||
    strIEq s "default" || strIEq s "revert" || strIEq s "revert-layer"

/-- Modelled from the spec: `Time` is an external duration value type
(`values/time.rs` is not under `src/`) with seconds/milliseconds variants,
structural equality, and a zero test. -/
inductive Time where
  | seconds (v : ℚ)
  | milliseconds (v : ℚ)
deriving DecidableEq, Repr

def Time.isZero : Time → Bool
  | .seconds v => v == 0
  | .milliseconds v => v == 0

/-- Modelled from the spec: `EasingFunction` is an external value type
(`values/easing.rs` is not under `src/`): enumerated keywords plus
`cubic-bezier()`/`steps()` function forms. -/
inductive EasingFunction where
  | linear
  | ease
  | easeIn
  | easeOut
  | easeInOut
  | stepStart
  | stepEnd
  | cubicBezier (x1 y1 x2 y2 : ℚ)
  | steps (n : ℤ)
deriving DecidableEq, Repr

/-- The easing keyword table; keyword matching is ASCII case-insensitive. -/
def EasingFunction.fromIdent (s : String) : Option EasingFunction :=
  if strIEq s "linear" then some .linear
  else if strIEq s "ease" then some .ease
  else if strIEq s "ease-in" then some .easeIn
  else if strIEq s "ease-out" then some .easeOut
  else if strIEq s "ease-in-out" then some .easeInOut
  else if strIEq s "step-start" then some .stepStart
  else if strIEq s "step-end" then some .stepEnd
  else Option.none

/-- `EasingFunction::is_ident`: whether a string is one of the easing
keywords (used by the collision guard in `Animation::to_css`). -/
def EasingFunction.isIdentStr (s : String) : Bool :=
  (EasingFunction.fromIdent s).isSome

/-- `AnimationIterationCount` (src lines 103-108). -/
inductive AnimationIterationCount where
  | number (v : ℚ)
  | infinite
deriving DecidableEq, Repr

/-- `AnimationDirection` (src lines 133-145, via `enum_property!`). -/
inductive AnimationDirection where
  | normal
  | reverse
  | alternate
  | alternateReverse
deriving DecidableEq, Repr

/-- `enum_property!`-generated keyword lookup (ASCII case-insensitive). -/
def AnimationDirection.parseString (s : String) : Option AnimationDirection :=
  if strIEq s "normal" then some .normal
  else if strIEq s "reverse" then some .reverse
  else if strIEq s "alternate" then some .alternate
  else if strIEq s "alternate-reverse" then some .alternateReverse
  else Option.none

/-- `AnimationPlayState` (src lines 147-155). -/
inductive AnimationPlayState where
  | running
  | paused
deriving DecidableEq, Repr

def AnimationPlayState.parseString (s : String) : Option AnimationPlayState :=
  if strIEq s "running" then some .running
  else if strIEq s "paused" then some .paused
  else Option.none

/-- `AnimationFillMode` (src lines 157-169). -/
inductive AnimationFillMode where
  | none
  | forwards
  | backwards
  | both
deriving DecidableEq, Repr

def AnimationFillMode.parseString (s : String) : Option AnimationFillMode :=
  if strIEq s "none" then some .none
  else if strIEq s "forwards" then some .forwards
  else if strIEq s "backwards" then some .backwards
  else if strIEq s "both" then some .both
  else Option.none

/-- The `animation` shorthand value (src lines 171-192,
`define_list_shorthand!`): the eight longhand slots in group order. -/
structure Animation where
  name : AnimationName
  duration : Time
  timingFunction : EasingFunction
  iterationCount : AnimationIterationCount
  direction : AnimationDirection
  playState : AnimationPlayState
  delay : Time
  fillMode : AnimationFillMode
deriving DecidableEq, Repr

/- ===================== component tokens ===================== -/

/-- One CSS component token of the shorthand's textual form: bare
identifiers, quoted strings, dimension tokens (times), number tokens and
function tokens are lexically distinct token kinds. -/
inductive Tok where
  | ident (s : String)
  | str (s : String)
  | dim (t : Time)
  | num (v : ℚ)
  | func (e : EasingFunction)
deriving DecidableEq, Repr

/-- `Time::parse`: a time is a dimension token. -/
def parseTimeTok : List Tok → Option (Time × List Tok)
  | .dim t :: rest => some (t, rest)
  | _ => Option.none

/-- `EasingFunction::parse`: an easing keyword identifier or a function
token. -/
def parseEasingTok : List Tok → Option (EasingFunction × List Tok)
  | .ident s :: rest => (EasingFunction.fromIdent s).map (fun e => (e, rest))
  | .func e :: rest => some (e, rest)
  | _ => Option.none

/-- `AnimationIterationCount::parse` (src lines 110-118): the identifier
`infinite` (ASCII case-insensitive, via `expect_ident_matching`) or a
number. -/
def parseIterationCountTok : List Tok → Option (AnimationIterationCount × List Tok)
  | .ident s :: rest => if strIEq s "infinite" then some (.infinite, rest) else Option.none
  | .num v :: rest => some (.number v, rest)
  | _ => Option.none

def parseDirectionTok : List Tok → Option (AnimationDirection × List Tok)
  | .ident s :: rest => (AnimationDirection.parseString s).map (fun d => (d, rest))
  | _ => Option.none

def parsePlayStateTok : List Tok → Option (AnimationPlayState × List Tok)
  | .ident s :: rest => (AnimationPlayState.parseString s).map (fun d => (d, rest))
  | _ => Option.none

def parseFillModeTok : List Tok → Option (AnimationFillMode × List Tok)
  | .ident s :: rest => (AnimationFillMode.parseString s).map (fun d => (d, rest))
  | _ => Option.none

/-- `AnimationName::parse` (src lines 39-61): `none` (case-insensitive)
first; then a bare identifier that is not a CSS-wide keyword, or a quoted
string. -/
def parseAnimationNameTok : List Tok → Option (AnimationName × List Tok)
  | .ident s :: rest =>
      if strIEq s "none" then some (.none, rest)
      else if cssWideKeyword s then Option.none
      else some (.ident s, rest)
  | .str s :: rest => some (.custom s, rest)
  | _ => Option.none

/- ===================== Animation::parse ===================== -/

/-- The eight optional slot variables of `Animation::parse`
(src lines 196-203). -/
structure AnimParseState where
  name? : Option AnimationName
  duration? : Option Time
  timingFunction? : Option EasingFunction
  iterationCount? : Option AnimationIterationCount
  direction? : Option AnimationDirection
  playState? : Option AnimationPlayState
  delay? : Option Time
  fillMode? : Option AnimationFillMode
deriving DecidableEq, Repr

def AnimParseState.initial : AnimParseState :=
  ⟨Option.none, Option.none, Option.none, Option.none,
   Option.none, Option.none, Option.none, Option.none⟩

/-- `parse_prop!` (src lines 205-214): attempt a sub-grammar only when the
slot is still unfilled. -/
def tryProp {α} (cur : Option α) (p : List Tok → Option (α × List Tok)) (ts : List Tok) :
    Option (α × List Tok) :=
  match cur with
  | some _ => Option.none
  | Option.none => p ts

/-- One pass of the parse loop body (src lines 216-226): the sub-grammars
are attempted in the source's priority order — duration, timing function,
delay, iteration count, direction, fill mode, play state, name — and the
first success refills its slot and consumes its token. -/
def animationParseStep (st : AnimParseState) (ts : List Tok) :
    Option (AnimParseState × List Tok) :=
  match tryProp st.duration? parseTimeTok ts with
  | some (v, rest) => some ({ st with duration? := some v }, rest)
  | Option.none =>
  match tryProp st.timingFunction? parseEasingTok ts with
  | some (v, rest) => some ({ st with timingFunction? := some v }, rest)
  | Option.none =>
  match tryProp st.delay? parseTimeTok ts with
  | some (v, rest) => some ({ st with delay? := some v }, rest)
  | Option.none =>
  match tryProp st.iterationCount? parseIterationCountTok ts with
  | some (v, rest) => some ({ st with iterationCount? := some v }, rest)
  | Option.none =>
  match tryProp st.direction? parseDirectionTok ts with
  | some (v, rest) => some ({ st with direction? := some v }, rest)
  | Option.none =>
  match tryProp st.fillMode? parseFillModeTok ts with
  | some (v, rest) => some ({ st with fillMode? := some v }, rest)
  | Option.none =>
  match tryProp st.playState? parsePlayStateTok ts with
  | some (v, rest) => some ({ st with playState? := some v }, rest)
  | Option.none =>
  match tryProp st.name? parseAnimationNameTok ts with
  | some (v, rest) => some ({ st with name? := some v }, rest)
  | Option.none => Option.none

/-- The parse loop: repeat until no sub-grammar matches.  Every successful
step consumes exactly one token, so `ts.length + 1` fuel is exact. -/
def animationParseLoop : Nat → AnimParseState → List Tok → AnimParseState × List Tok
  | 0, st, ts => (st, ts)
  | fuel + 1, st, ts =>
    match animationParseStep st ts with
    | some (st', ts') => animationParseLoop fuel st' ts'
    | Option.none => (st, ts)

/-- `Animation::parse` (src lines 194-239): run the loop, then fill
unclaimed slots with their defaults (src lines 228-237).  Returns the value
and the unconsumed tokens; the input is accepted when no token is left. -/
def Animation.parseToks (ts : List Tok) : Animation × List Tok :=
  let (st, rest) := animationParseLoop (ts.length + 1) AnimParseState.initial ts
  ({ name := st.name?.getD .none,
     duration := st.duration?.getD (.seconds 0),
     timingFunction := st.timingFunction?.getD .ease,
     iterationCount := st.iterationCount?.getD (.number 1),
     direction := st.direction?.getD .normal,
     playState := st.playState?.getD .running,
     delay := st.delay?.getD (.seconds 0),
     fillMode := st.fillMode?.getD .none }, rest)

/- ===================== Animation::to_css ===================== -/

/-- `AnimationName::to_css` (src lines 64-91): `none` and identifiers are
written bare; custom strings are written bare unless they are CSS-wide
keywords, which keep their quotes. -/
def AnimationName.toToks : AnimationName → List Tok
  | .none => [.ident "none"]
  | .ident s => [.ident s]
  | .custom s => if cssWideKeyword s then [.str s] else [.ident s]

def Time.toTok (t : Time) : Tok := .dim t

def EasingFunction.toTok : EasingFunction → Tok
  | .linear => .ident "linear"
  | .ease => .ident "ease"
  | .easeIn => .ident "ease-in"
  | .easeOut => .ident "ease-out"
  | .easeInOut => .ident "ease-in-out"
  | .stepStart => .ident "step-start"
  | .stepEnd => .ident "step-end"
  | .cubicBezier a b c d => .func (.cubicBezier a b c d)
  | .steps n => .func (.steps n)

def AnimationIterationCount.toTok : AnimationIterationCount → Tok
  | .number v => .num v
  | .infinite => .ident "infinite"

def AnimationDirection.toTok : AnimationDirection → Tok
  | .normal => .ident "normal"
  | .reverse => .ident "reverse"
  | .alternate => .ident "alternate"
  | .alternateReverse => .ident "alternate-reverse"

def AnimationPlayState.toTok : AnimationPlayState → Tok
  | .running => .ident "running"
  | .paused => .ident "paused"

def AnimationFillMode.toTok : AnimationFillMode → Tok
  | .none => .ident "none"
  | .forwards => .ident "forwards"
  | .backwards => .ident "backwards"
  | .both => .ident "both"

/-- The slot segments printed after an identifier or custom-string name,
`s` being the name's text (src lines 249-331; the `Ident` and `Custom`
branches of the source are token-for-token identical given the name text).
Order: duration, timing function, delay, iteration count, direction, fill
mode, play state.  The iteration-count guard compares the name text with
`"infinite"` byte-for-byte (derived string equality, src line 268/307);
the enumerated-keyword guards go through the slot's own `parse_string`. -/
def Animation.tailToks (a : Animation) (s : String) : List Tok :=
  (if a.duration.isZero = false ∨ a.delay.isZero = false
    then [a.duration.toTok] else []) ++
  (if (a.timingFunction ≠ .ease ∧
       a.timingFunction ≠ .cubicBezier (1/4) (1/10) (1/4) 1) ∨
      EasingFunction.isIdentStr s = true
    then [a.timingFunction.toTok] else []) ++
  (if a.delay.isZero = false then [a.delay.toTok] else []) ++
  (if a.iterationCount ≠ .number 1 ∨ s = "infinite"
    then [a.iterationCount.toTok] else []) ++
  (if a.direction ≠ .normal ∨ (AnimationDirection.parseString s).isSome = true
    then [a.direction.toTok] else []) ++
  (if a.fillMode ≠ .none ∨ (AnimationFillMode.parseString s).isSome = true
    then [a.fillMode.toTok] else []) ++
  (if a.playState ≠ .running ∨ (AnimationPlayState.parseString s).isSome = true
    then [a.playState.toTok] else [])

/-- `Animation::to_css` (src lines 241-336): the name is printed first;
when the name is `none` the function returns immediately after it
(src line 248), otherwise the remaining slots follow. -/
def Animation.toToks (a : Animation) : List Tok :=
  match a.name with
  | .none => AnimationName.toToks .none
  | .ident s => AnimationName.toToks (.ident s) ++ a.tailToks s
  | .custom s => AnimationName.toToks (.custom s) ++ a.tailToks s

/- ===================== properties ===================== -/

/-- `PropertyId` restricted to what `is_animation_property` inspects: the
animation family plus an opaque remainder. -/
inductive PropertyId where
  | animationName (vp : VendorPrefix)
  | animationDuration (vp : VendorPrefix)
  | animationTimingFunction (vp : VendorPrefix)
  | animationIterationCount (vp : VendorPrefix)
  | animationDirection (vp : VendorPrefix)
  | animationPlayState (vp : VendorPrefix)
  | animationDelay (vp : VendorPrefix)
  | animationFillMode (vp : VendorPrefix)
  | animation (vp : VendorPrefix)
  | other (n : Nat)
deriving DecidableEq, Repr

/-- `is_animation_property` (src lines 583-597). -/
def isAnimationProperty : PropertyId → Bool
  | .animationName _ => true
  | .animationDuration _ => true
  | .animationTimingFunction _ => true
  | .animationIterationCount _ => true
  | .animationDirection _ => true
  | .animationPlayState _ => true
  | .animationDelay _ => true
  | .animationFillMode _ => true
  | .animation _ => true
  | .other _ => false

def PropertyId.pfx : PropertyId → VendorPrefix
  | .animationName vp => vp
  | .animationDuration vp => vp
  | .animationTimingFunction vp => vp
  | .animationIterationCount vp => vp
  | .animationDirection vp => vp
  | .animationPlayState vp => vp
  | .animationDelay vp => vp
  | .animationFillMode vp => vp
  | .animation vp => vp
  | .other _ => VendorPrefix.empty

def PropertyId.withPfx : PropertyId → VendorPrefix → PropertyId
  | .animationName _, vp => .animationName vp
  | .animationDuration _, vp => .animationDuration vp
  | .animationTimingFunction _, vp => .animationTimingFunction vp
  | .animationIterationCount _, vp => .animationIterationCount vp
  | .animationDirection _, vp => .animationDirection vp
  | .animationPlayState _, vp => .animationPlayState vp
  | .animationDelay _, vp => .animationDelay vp
  | .animationFillMode _, vp => .animationFillMode vp
  | .animation _, vp => .animation vp
  | .other n, _ => .other n

/-- An `Unparsed` passthrough property: a property id plus opaque raw
value tokens. -/
structure UnparsedProperty where
  propertyId : PropertyId
  value : Nat
deriving DecidableEq, Repr

/-- Modelled from the spec: `UnparsedProperty::get_prefixed`
(`properties/custom.rs` is not under `src/`) annotates the property id
"with vendor-prefix expansion appropriate to the declared browser-support
targets": when targets are configured and the id carries the unprefixed
bit, the id's prefix is replaced by the feature's target prefixes. -/
def UnparsedProperty.getPrefixed (u : UnparsedProperty) (targets : Option Browsers)
    (f : Feature) : UnparsedProperty :=
  match targets with
  | some t =>
      if u.propertyId.pfx.contains vpNone = true then
        { u with propertyId := u.propertyId.withPfx (t.prefixesFor f) }
      else u
  | Option.none => u

/-- The `Property` cases the animation handler can receive: the eight
longhands, the `animation` shorthand, `Unparsed` passthrough, and an
opaque remainder for every other property. -/
inductive Property where
  | animationName (v : List AnimationName) (vp : VendorPrefix)
  | animationDuration (v : List Time) (vp : VendorPrefix)
  | animationTimingFunction (v : List EasingFunction) (vp : VendorPrefix)
  | animationIterationCount (v : List AnimationIterationCount) (vp : VendorPrefix)
  | animationDirection (v : List AnimationDirection) (vp : VendorPrefix)
  | animationPlayState (v : List AnimationPlayState) (vp : VendorPrefix)
  | animationDelay (v : List Time) (vp : VendorPrefix)
  | animationFillMode (v : List AnimationFillMode) (vp : VendorPrefix)
  | animation (v : List Animation) (vp : VendorPrefix)
  | unparsed (u : UnparsedProperty)
  | other (n : Nat)
deriving DecidableEq, Repr

/- ===================== the accumulator ===================== -/

/-- `AnimationHandler` (src lines 341-353): per-slot accumulated value
sequence and prefix set, plus the `has_any` flag and the browser targets. -/
structure AnimationHandler where
  targets : Option Browsers
  names : Option (List AnimationName × VendorPrefix)
  durations : Option (List Time × VendorPrefix)
  timingFunctions : Option (List EasingFunction × VendorPrefix)
  iterationCounts : Option (List AnimationIterationCount × VendorPrefix)
  directions : Option (List AnimationDirection × VendorPrefix)
  playStates : Option (List AnimationPlayState × VendorPrefix)
  delays : Option (List Time × VendorPrefix)
  fillModes : Option (List AnimationFillMode × VendorPrefix)
  hasAny : Bool

/-- `AnimationHandler::new` / `Default`. -/
def AnimationHandler.new (targets : Option Browsers) : AnimationHandler :=
  { targets := targets, names := Option.none, durations := Option.none,
    timingFunctions := Option.none, iterationCounts := Option.none,
    directions := Option.none, playStates := Option.none,
    delays := Option.none, fillModes := Option.none, hasAny := false }

/-- The state after `flush` has taken every slot (`std::mem::take`,
src lines 464-473): all slots empty, `has_any` false. -/
def AnimationHandler.cleared (st : AnimationHandler) : AnimationHandler :=
  AnimationHandler.new st.targets

/-- The prefix adjustment applied before emitting (src lines 538-543 and
560-565): a set containing the unprefixed bit is replaced by the feature's
browser-target prefixes when targets are configured. -/
def expandedPrefix (targets : Option Browsers) (f : Feature) (vp : VendorPrefix) :
    VendorPrefix :=
  if vp.contains vpNone = true then
    match targets with
    | some t => t.prefixesFor f
    | Option.none => vp
  else vp

/-- `izip!` over the eight drained slot sequences (src lines 513-537),
rebuilding one `Animation` per comma-separated instance. -/
def zipAnimations : List AnimationName → List Time → List EasingFunction →
    List AnimationIterationCount → List AnimationDirection →
    List AnimationPlayState → List Time → List AnimationFillMode → List Animation
  | n :: ns, d :: ds, tf :: tfs, ic :: ics, di :: dis, ps :: pss, de :: des, fm :: fms =>
      ⟨n, d, tf, ic, di, ps, de, fm⟩ :: zipAnimations ns ds tfs ics dis pss des fms
  | _, _, _, _, _, _, _, _ => []

/-- The `prop!` emission macro of `flush` (src lines 556-570): a slot with
a non-empty prefix set is emitted as a standalone longhand, with the
unprefixed bit expanded to the feature's target prefixes. -/
def emitSlot {α} (slot : Option (List α × VendorPrefix)) (targets : Option Browsers)
    (f : Feature) (mk : List α → VendorPrefix → Property) : List Property :=
  match slot with
  | some (val, vp) => if vp.isEmpty = false then [mk val (expandedPrefix targets f vp)] else []
  | Option.none => []

/-- The eight-fold prefix intersection of `flush` (src lines 496-503). -/
def slotIntersection (nvp dvp tvp ivp dirvp pvp devp fvp : VendorPrefix) : VendorPrefix :=
  (((((((nvp.inter dvp).inter tvp).inter ivp).inter dirvp).inter pvp).inter devp).inter fvp)

/-- The merged-emission step of `flush` (src lines 475-554): when all
eight slots are populated, the instance counts agree and the prefix
intersection is non-empty, the merged `animation` declaration is built;
its instances drain the slot sequences (leaving them empty) and the
intersection is removed from every slot's prefix set.  Returns the merged
declarations together with the (possibly drained) slot locals handed to
the `prop!` emission. -/
def flushTaken (st : AnimationHandler) :
    List Property ×
    Option (List AnimationName × VendorPrefix) ×
    Option (List Time × VendorPrefix) ×
    Option (List EasingFunction × VendorPrefix) ×
    Option (List AnimationIterationCount × VendorPrefix) ×
    Option (List AnimationDirection × VendorPrefix) ×
    Option (List AnimationPlayState × VendorPrefix) ×
    Option (List Time × VendorPrefix) ×
    Option (List AnimationFillMode × VendorPrefix) :=
  match st.names, st.durations, st.timingFunctions, st.iterationCounts,
        st.directions, st.playStates, st.delays, st.fillModes with
  | some (ns, nvp), some (ds, dvp), some (tfs, tvp), some (ics, ivp),
    some (dirs, dirvp), some (pss, pvp), some (des, devp), some (fms, fvp) =>
      let len := ns.length
      let inter := slotIntersection nvp dvp tvp ivp dirvp pvp devp fvp
      if inter.isEmpty = false ∧ ds.length = len ∧ tfs.length = len ∧
         ics.length = len ∧ dirs.length = len ∧ pss.length = len ∧
         des.length = len ∧ fms.length = len then
        (([Property.animation (zipAnimations ns ds tfs ics dirs pss des fms)
             (expandedPrefix st.targets .animation inter)],
          some (([] : List AnimationName), nvp.remove inter),
          some (([] : List Time), dvp.remove inter),
          some (([] : List EasingFunction), tvp.remove inter),
          some (([] : List AnimationIterationCount), ivp.remove inter),
          some (([] : List AnimationDirection), dirvp.remove inter),
          some (([] : List AnimationPlayState), pvp.remove inter),
          some (([] : List Time), devp.remove inter),
          some (([] : List AnimationFillMode), fvp.remove inter)))
      else
        (([], st.names, st.durations, st.timingFunctions, st.iterationCounts,
          st.directions, st.playStates, st.delays, st.fillModes))
  | _, _, _, _, _, _, _, _ =>
      (([], st.names, st.durations, st.timingFunctions, st.iterationCounts,
        st.directions, st.playStates, st.delays, st.fillModes))

/-- The full list of declarations emitted by one (non-trivial) `flush`:
the merged declaration, if any, followed by the `prop!` emissions in group
order (src lines 572-579). -/
def flushEmitted (st : AnimationHandler) : List Property :=
  match flushTaken st with
  | (merged, ns, ds, tfs, ics, dirs, pss, des, fms) =>
      merged ++
      emitSlot ns st.targets .animationName Property.animationName ++
      emitSlot ds st.targets .animationDuration Property.animationDuration ++
      emitSlot tfs st.targets .animationTimingFunction Property.animationTimingFunction ++
      emitSlot ics st.targets .animationIterationCount Property.animationIterationCount ++
      emitSlot dirs st.targets .animationDirection Property.animationDirection ++
      emitSlot pss st.targets .animationPlayState Property.animationPlayState ++
      emitSlot des st.targets .animationDelay Property.animationDelay ++
      emitSlot fms st.targets .animationFillMode Property.animationFillMode

/-- `AnimationHandler::flush` (src lines 459-581): a no-op unless
something is pending; otherwise every slot is taken (clearing the state)
and the merged and per-slot declarations are emitted. -/
def AnimationHandler.flush (st : AnimationHandler) : AnimationHandler × List Property :=
  if st.hasAny = false then (st, [])
  else (st.cleared, flushEmitted st)

/-- `flush` into an output declaration list. -/
def AnimationHandler.flushInto (st : AnimationHandler) (dest : List Property) :
    AnimationHandler × List Property :=
  ((st.flush).1, dest ++ (st.flush).2)

/-- The `maybe_flush!` condition (src lines 373-383): the slot holds a
different value and its prefix set does not already contain the incoming
prefixes. -/
def maybeFlushCond {α} [DecidableEq α] (slot : Option (List α × VendorPrefix))
    (v : List α) (vp : VendorPrefix) : Bool :=
  match slot with
  | some (val, pfxs) => decide (val ≠ v) && !(pfxs.contains vp)
  | Option.none => false

/-- `property!`'s slot update (src lines 385-398): overwrite the value and
union the prefixes, or populate an empty slot and raise `has_any`. -/
def updatedSlot {α} (slot : Option (List α × VendorPrefix)) (v : List α)
    (vp : VendorPrefix) : Option (List α × VendorPrefix) :=
  match slot with
  | some (_, pfxs) => some (v, pfxs.union vp)
  | Option.none => some (v, vp)

/-- `maybe_flush!` as a state/output step for the `names` slot. -/
def mfNames (st : AnimationHandler) (dest : List Property) (v : List AnimationName)
    (vp : VendorPrefix) : AnimationHandler × List Property :=
  if maybeFlushCond st.names v vp = true then st.flushInto dest else (st, dest)

def mfDurations (st : AnimationHandler) (dest : List Property) (v : List Time)
    (vp : VendorPrefix) : AnimationHandler × List Property :=
  if maybeFlushCond st.durations v vp = true then st.flushInto dest else (st, dest)

def mfTimingFunctions (st : AnimationHandler) (dest : List Property)
    (v : List EasingFunction) (vp : VendorPrefix) : AnimationHandler × List Property :=
  if maybeFlushCond st.timingFunctions v vp = true then st.flushInto dest else (st, dest)

def mfIterationCounts (st : AnimationHandler) (dest : List Property)
    (v : List AnimationIterationCount) (vp : VendorPrefix) :
    AnimationHandler × List Property :=
  if maybeFlushCond st.iterationCounts v vp = true then st.flushInto dest else (st, dest)

def mfDirections (st : AnimationHandler) (dest : List Property)
    (v : List AnimationDirection) (vp : VendorPrefix) : AnimationHandler × List Property :=
  if maybeFlushCond st.directions v vp = true then st.flushInto dest else (st, dest)

def mfPlayStates (st : AnimationHandler) (dest : List Property)
    (v : List AnimationPlayState) (vp : VendorPrefix) : AnimationHandler × List Property :=
  if maybeFlushCond st.playStates v vp = true then st.flushInto dest else (st, dest)

def mfDelays (st : AnimationHandler) (dest : List Property) (v : List Time)
    (vp : VendorPrefix) : AnimationHandler × List Property :=
  if maybeFlushCond st.delays v vp = true then st.flushInto dest else (st, dest)

def mfFillModes (st : AnimationHandler) (dest : List Property)
    (v : List AnimationFillMode) (vp : VendorPrefix) : AnimationHandler × List Property :=
  if maybeFlushCond st.fillModes v vp = true then st.flushInto dest else (st, dest)

/-- The `property!` macro for the `names` slot: conditional flush, then
overwrite-and-union (src lines 385-398). -/
def applyNames (st : AnimationHandler) (dest : List Property) (v : List AnimationName)
    (vp : VendorPrefix) : AnimationHandler × List Property :=
  ({ (mfNames st dest v vp).1 with
      names := updatedSlot (mfNames st dest v vp).1.names v vp,
      hasAny := (mfNames st dest v vp).1.names.isNone || (mfNames st dest v vp).1.hasAny },
   (mfNames st dest v vp).2)

def applyDurations (st : AnimationHandler) (dest : List Property) (v : List Time)
    (vp : VendorPrefix) : AnimationHandler × List Property :=
  ({ (mfDurations st dest v vp).1 with
      durations := updatedSlot (mfDurations st dest v vp).1.durations v vp,
      hasAny := (mfDurations st dest v vp).1.durations.isNone || (mfDurations st dest v vp).1.hasAny },
   (mfDurations st dest v vp).2)

def applyTimingFunctions (st : AnimationHandler) (dest : List Property)
    (v : List EasingFunction) (vp : VendorPrefix) : AnimationHandler × List Property :=
  ({ (mfTimingFunctions st dest v vp).1 with
      timingFunctions := updatedSlot (mfTimingFunctions st dest v vp).1.timingFunctions v vp,
      hasAny := (mfTimingFunctions st dest v vp).1.timingFunctions.isNone || (mfTimingFunctions st dest v vp).1.hasAny },
   (mfTimingFunctions st dest v vp).2)

def applyIterationCounts (st : AnimationHandler) (dest : List Property)
    (v : List AnimationIterationCount) (vp : VendorPrefix) :
    AnimationHandler × List Property :=
  ({ (mfIterationCounts st dest v vp).1 with
      iterationCounts := updatedSlot (mfIterationCounts st dest v vp).1.iterationCounts v vp,
      hasAny := (mfIterationCounts st dest v vp).1.iterationCounts.isNone || (mfIterationCounts st dest v vp).1.hasAny },
   (mfIterationCounts st dest v vp).2)

def applyDirections (st : AnimationHandler) (dest : List Property)
    (v : List AnimationDirection) (vp : VendorPrefix) : AnimationHandler × List Property :=
  ({ (mfDirections st dest v vp).1 with
      directions := updatedSlot (mfDirections st dest v vp).1.directions v vp,
      hasAny := (mfDirections st dest v vp).1.directions.isNone || (mfDirections st dest v vp).1.hasAny },
   (mfDirections st dest v vp).2)

def applyPlayStates (st : AnimationHandler) (dest : List Property)
    (v : List AnimationPlayState) (vp : VendorPrefix) : AnimationHandler × List Property :=
  ({ (mfPlayStates st dest v vp).1 with
      playStates := updatedSlot (mfPlayStates st dest v vp).1.playStates v vp,
      hasAny := (mfPlayStates st dest v vp).1.playStates.isNone || (mfPlayStates st dest v vp).1.hasAny },
   (mfPlayStates st dest v vp).2)

def applyDelays (st : AnimationHandler) (dest : List Property) (v : List Time)
    (vp : VendorPrefix) : AnimationHandler × List Property :=
  ({ (mfDelays st dest v vp).1 with
      delays := updatedSlot (mfDelays st dest v vp).1.delays v vp,
      hasAny := (mfDelays st dest v vp).1.delays.isNone || (mfDelays st dest v vp).1.hasAny },
   (mfDelays st dest v vp).2)

def applyFillModes (st : AnimationHandler) (dest : List Property)
    (v : List AnimationFillMode) (vp : VendorPrefix) : AnimationHandler × List Property :=
  ({ (mfFillModes st dest v vp).1 with
      fillModes := updatedSlot (mfFillModes st dest v vp).1.fillModes v vp,
      hasAny := (mfFillModes st dest v vp).1.fillModes.isNone || (mfFillModes st dest v vp).1.hasAny },
   (mfFillModes st dest v vp).2)

/-- `AnimationHandler::handle_property` (src lines 364-451).  Returns
whether the property was consumed, the new state, and the output list
(`dest`) with any flushed declarations appended. -/
def AnimationHandler.handleProperty (st : AnimationHandler) (p : Property)
    (dest : List Property) : Bool × AnimationHandler × List Property :=
  match p with
  | .animationName v vp =>
      (true, applyNames st dest v vp)
  | .animationDuration v vp =>
      (true, applyDurations st dest v vp)
  | .animationTimingFunction v vp =>
      (true, applyTimingFunctions st dest v vp)
  | .animationIterationCount v vp =>
      (true, applyIterationCounts st dest v vp)
  | .animationDirection v vp =>
      (true, applyDirections st dest v vp)
  | .animationPlayState v vp =>
      (true, applyPlayStates st dest v vp)
  | .animationDelay v vp =>
      (true, applyDelays st dest v vp)
  | .animationFillMode v vp =>
      (true, applyFillModes st dest v vp)
  | .animation val vp =>
      -- src lines 409-442: run every slot's `maybe_flush!` first, in slot
      -- order, then re-absorb the decomposed slots with `property!`.
      let names := val.map (fun b => b.name)
      let durations := val.map (fun b => b.duration)
      let timingFunctions := val.map (fun b => b.timingFunction)
      let iterationCounts := val.map (fun b => b.iterationCount)
      let directions := val.map (fun b => b.direction)
      let playStates := val.map (fun b => b.playState)
      let delays := val.map (fun b => b.delay)
      let fillModes := val.map (fun b => b.fillMode)
      let r1 := mfNames st dest names vp
      let r2 := mfDurations r1.1 r1.2 durations vp
      let r3 := mfTimingFunctions r2.1 r2.2 timingFunctions vp
      let r4 := mfIterationCounts r3.1 r3.2 iterationCounts vp
      let r5 := mfDirections r4.1 r4.2 directions vp
      let r6 := mfPlayStates r5.1 r5.2 playStates vp
      let r7 := mfDelays r6.1 r6.2 delays vp
      let r8 := mfFillModes r7.1 r7.2 fillModes vp
      let a1 := applyNames r8.1 r8.2 names vp
      let a2 := applyDurations a1.1 a1.2 durations vp
      let a3 := applyTimingFunctions a2.1 a2.2 timingFunctions vp
      let a4 := applyIterationCounts a3.1 a3.2 iterationCounts vp
      let a5 := applyDirections a4.1 a4.2 directions vp
      let a6 := applyPlayStates a5.1 a5.2 playStates vp
      let a7 := applyDelays a6.1 a6.2 delays vp
      (true, applyFillModes a7.1 a7.2 fillModes vp)
  | .unparsed u =>
      if isAnimationProperty u.propertyId = true then
        (true, (st.flushInto dest).1,
          (st.flushInto dest).2 ++ [Property.unparsed (u.getPrefixed st.targets .animation)])
      else
        (false, st, dest)
  | .other _ => (false, st, dest)

/-- `PropertyHandler::finalize` (src lines 453-456). -/
def AnimationHandler.finalize (st : AnimationHandler) (dest : List Property) :
    AnimationHandler × List Property :=
  st.flushInto dest

/- ===================== keyframes fallbacks ===================== -/

/-- Modelled from the spec: `ColorFallbackKind` (`values/color.rs` is not
under `src/`) is a bit-set over the representations {sRGB, P3, LAB} with
the preference order sRGB < P3 < LAB used by `lowest`. -/
structure ColorFallbackKind where
  rgb : Bool
  p3 : Bool
  lab : Bool
deriving DecidableEq, Repr

def ColorFallbackKind.empty : ColorFallbackKind := ⟨false, false, false⟩

def cfkRGB : ColorFallbackKind := ⟨true, false, false⟩

def cfkP3 : ColorFallbackKind := ⟨false, true, false⟩

def cfkLAB : ColorFallbackKind := ⟨false, false, true⟩

def ColorFallbackKind.union (a b : ColorFallbackKind) : ColorFallbackKind :=
  ⟨a.rgb || b.rgb, a.p3 || b.p3, a.lab || b.lab⟩

def ColorFallbackKind.remove (a b : ColorFallbackKind) : ColorFallbackKind :=
  ⟨a.rgb && !b.rgb, a.p3 && !b.p3, a.lab && !b.lab⟩

def ColorFallbackKind.isEmpty (a : ColorFallbackKind) : Bool :=
  !a.rgb && !a.p3 && !a.lab

def ColorFallbackKind.contains (a b : ColorFallbackKind) : Bool :=
  (a.rgb || !b.rgb) && (a.p3 || !b.p3) && (a.lab || !b.lab)

/-- Modelled from the spec: the "lowest" (most broadly compatible) member
of the set under the preference order sRGB < P3 < LAB, or empty. -/
def ColorFallbackKind.lowest (a : ColorFallbackKind) : ColorFallbackKind :=
  if a.rgb then cfkRGB
  else if a.p3 then cfkP3
  else if a.lab then cfkLAB
  else ColorFallbackKind.empty

/-- A keyframe selector (src/rules/keyframes.rs lines 193-200). -/
inductive KeyframeSelector where
  | percentage (p : ℚ)
  | fromKw
  | toKw
deriving DecidableEq, Repr

/-- The declarations of a keyframe block, over an opaque raw-value type
`V`.  Only `Custom` and `Unparsed` declarations carry color-bearing raw
values; everything else is opaque. -/
inductive KfProperty (V : Type) where
  | custom (name : String) (value : V)
  | unparsed (pid : Nat) (value : V)
  | other (n : Nat)
deriving DecidableEq, Repr

structure KfDeclarationBlock (V : Type) where
  importantDeclarations : List (KfProperty V)
  declarations : List (KfProperty V)
deriving DecidableEq, Repr

/-- `Keyframe` (src/rules/keyframes.rs lines 250-256). -/
structure Keyframe (V : Type) where
  selectors : List KeyframeSelector
  declarations : KfDeclarationBlock V
deriving DecidableEq, Repr

/-- `KeyframesRule` (src/rules/keyframes.rs lines 24-34). -/
structure KeyframesRule (V : Type) where
  name : String
  keyframes : List (Keyframe V)
  vendorPrefix : VendorPrefix
  loc : Nat
deriving DecidableEq, Repr

/-- `CssRule`, restricted to the cases `get_fallbacks` produces: a
keyframes rule, or a `@supports` wrapper whose condition is the feature
query generated by a fallback kind (`kind.supports_condition()`, a fixed
string per kind, represented by the kind itself). -/
inductive CssRule (V : Type) where
  | keyframes (r : KeyframesRule V)
  | supports (condition : ColorFallbackKind) (rules : List (CssRule V)) (loc : Nat)

/-- The declaration rewrite inside `get_fallback` (src/rules/keyframes.rs
lines 105-115): custom and unparsed values are replaced by their fallback
representation for `kind`; other declarations are cloned unchanged.
`gf` is the external `value.get_fallback(kind)` contract. -/
def kfPropertyFallback {V : Type} (gf : V → ColorFallbackKind → V)
    (kind : ColorFallbackKind) : KfProperty V → KfProperty V
  | .custom n v => .custom n (gf v kind)
  | .unparsed pid v => .unparsed pid (gf v kind)
  | .other n => .other n

/-- `KeyframesRule::get_fallback` (src/rules/keyframes.rs lines 93-131):
clone the rule, rewrite every custom/unparsed value for `kind`, drop the
important declarations, and wrap the clone in a `@supports` rule gated on
`kind`. -/
def KeyframesRule.getFallbackRule {V : Type} (gf : V → ColorFallbackKind → V)
    (rule : KeyframesRule V) (kind : ColorFallbackKind) : CssRule V :=
  CssRule.supports kind
    [CssRule.keyframes
      { name := rule.name,
        keyframes := rule.keyframes.map (fun kf =>
          { selectors := kf.selectors,
            declarations :=
              { importantDeclarations := [],
                declarations := kf.declarations.declarations.map
                  (kfPropertyFallback gf kind) } }),
        vendorPrefix := rule.vendorPrefix,
        loc := rule.loc }]
    rule.loc

/-- The fallback-kind union accumulated over every keyframe's declarations
(src/rules/keyframes.rs lines 50-60).  `gn` is the external
`value.get_necessary_fallbacks(targets)` contract (targets already
applied). -/
def kfNecessaryFallbacks {V : Type} (gn : V → ColorFallbackKind)
    (rule : KeyframesRule V) : ColorFallbackKind :=
  rule.keyframes.foldl (fun acc kf =>
    kf.declarations.declarations.foldl (fun acc p =>
      match p with
      | .custom _ v => acc.union (gn v)
      | .unparsed _ v => acc.union (gn v)
      | .other _ => acc) acc) ColorFallbackKind.empty

/-- The in-place rewrite of the original rule to the `lowest`
representation (src/rules/keyframes.rs lines 76-88). -/
def kfRewriteLowest {V : Type} (gf : V → ColorFallbackKind → V)
    (rule : KeyframesRule V) (kind : ColorFallbackKind) : KeyframesRule V :=
  { rule with keyframes := rule.keyframes.map (fun kf =>
      { kf with declarations :=
          { kf.declarations with declarations :=
              kf.declarations.declarations.map (kfPropertyFallback gf kind) } }) }

/-- `KeyframesRule::get_fallbacks` (src/rules/keyframes.rs lines 49-91):
returns the (possibly rewritten) rule together with the emitted
`@supports` duplicates, P3-gated first, LAB-gated second. -/
def KeyframesRule.getFallbacks {V : Type} (gn : V → ColorFallbackKind)
    (gf : V → ColorFallbackKind → V) (rule : KeyframesRule V) :
    KeyframesRule V × List (CssRule V) :=
  let fallbacks := kfNecessaryFallbacks gn rule
  let lowestFallback := fallbacks.lowest
  let fallbacks := fallbacks.remove lowestFallback
  let res : List (CssRule V) := []
  let res := if fallbacks.contains cfkP3 = true
    then res ++ [rule.getFallbackRule gf cfkP3] else res
  let res := if fallbacks.contains cfkLAB = true ∨
      (lowestFallback.isEmpty = false ∧ lowestFallback ≠ cfkLAB)
    then res ++ [rule.getFallbackRule gf cfkLAB] else res
  let rule := if lowestFallback.isEmpty = false
    then kfRewriteLowest gf rule lowestFallback else rule
  (rule, res)

/- ===================== theorems ===================== -/

/-- C1: the round-trip property fails on the code at the claim's own
example `animation: none 2s`.  The tokens parse with name `none` (the
leading `none` is claimed by the fill-mode slot, which is tried before the
name) and duration `2s`, the whole input is consumed, but `to_css` returns
immediately after printing a `none` name (src line 248), so the printed
form re-parses with the default duration `0s`, not a value equal to the
original. -/
theorem animation_roundtrip_none_2s_fails :
    (Animation.parseToks [Tok.ident "none", Tok.dim (.seconds 2)]).2 = [] ∧
    (Animation.parseToks [Tok.ident "none", Tok.dim (.seconds 2)]).1.duration = .seconds 2 ∧
    Animation.toToks (Animation.parseToks [Tok.ident "none", Tok.dim (.seconds 2)]).1
      = [Tok.ident "none"] ∧
    (Animation.parseToks (Animation.toToks
        (Animation.parseToks [Tok.ident "none", Tok.dim (.seconds 2)]).1)).1
      ≠ (Animation.parseToks [Tok.ident "none", Tok.dim (.seconds 2)]).1 := by
  decide

/- ===================== C5: print order and elision ===================== -/

/-- The literal text of a name, as used by the collision guards. -/
def AnimationName.text : AnimationName → String
  | .none => "none"
  | .ident s => s
  | .custom s => s

/-- The print behaviour exactly as claim C5 states it, for comparison with
the code: name first, then the remaining slots in the order duration,
timing-function, iteration-count, direction, play-state, delay, fill-mode,
each omitted exactly when it equals its default and the name's text does
not collide with (parse in) the slot's grammar. -/
def claimedPrintC5 (a : Animation) : List Tok :=
  let s := a.name.text
  a.name.toToks ++
  (if a.duration ≠ .seconds 0 ∨ (parseTimeTok [Tok.ident s]).isSome = true
    then [a.duration.toTok] else []) ++
  (if a.timingFunction ≠ .ease ∨ (parseEasingTok [Tok.ident s]).isSome = true
    then [a.timingFunction.toTok] else []) ++
  (if a.iterationCount ≠ .number 1 ∨ (parseIterationCountTok [Tok.ident s]).isSome = true
    then [a.iterationCount.toTok] else []) ++
  (if a.direction ≠ .normal ∨ (parseDirectionTok [Tok.ident s]).isSome = true
    then [a.direction.toTok] else []) ++
  (if a.playState ≠ .running ∨ (parsePlayStateTok [Tok.ident s]).isSome = true
    then [a.playState.toTok] else []) ++
  (if a.delay ≠ .seconds 0 ∨ (parseTimeTok [Tok.ident s]).isSome = true
    then [a.delay.toTok] else []) ++
  (if a.fillMode ≠ .none ∨ (parseFillModeTok [Tok.ident s]).isSome = true
    then [a.fillMode.toTok] else [])

/-- Duration is skipped exactly when both duration and delay are zero
(src line 250). -/
def omitDuration (a : Animation) : Prop :=
  a.duration.isZero = true ∧ a.delay.isZero = true

/-- Timing function is skipped exactly when it equals `ease` or the
equivalent `cubic-bezier(0.25, 0.1, 0.25, 1)` and the name is not an
easing keyword (src lines 255-258). -/
def omitTimingFunction (a : Animation) (s : String) : Prop :=
  (a.timingFunction = .ease ∨ a.timingFunction = .cubicBezier (1/4) (1/10) (1/4) 1) ∧
    EasingFunction.isIdentStr s = false

def omitDelay (a : Animation) : Prop := a.delay.isZero = true

/-- Iteration count is skipped exactly when it equals `1` and the name is
not byte-for-byte `infinite` (src line 268). -/
def omitIterationCount (a : Animation) (s : String) : Prop :=
  a.iterationCount = .number 1 ∧ s ≠ "infinite"

def omitDirection (a : Animation) (s : String) : Prop :=
  a.direction = .normal ∧ (AnimationDirection.parseString s).isSome = false

def omitFillMode (a : Animation) (s : String) : Prop :=
  a.fillMode = .none ∧ (AnimationFillMode.parseString s).isSome = false

def omitPlayState (a : Animation) (s : String) : Prop :=
  a.playState = .running ∧ (AnimationPlayState.parseString s).isSome = false

instance (a : Animation) : Decidable (omitDuration a) := by
  unfold omitDuration; infer_instance

instance (a : Animation) (s : String) : Decidable (omitTimingFunction a s) := by
  unfold omitTimingFunction; infer_instance

instance (a : Animation) : Decidable (omitDelay a) := by
  unfold omitDelay; infer_instance

instance (a : Animation) (s : String) : Decidable (omitIterationCount a s) := by
  unfold omitIterationCount; infer_instance

instance (a : Animation) (s : String) : Decidable (omitDirection a s) := by
  unfold omitDirection; infer_instance

instance (a : Animation) (s : String) : Decidable (omitFillMode a s) := by
  unfold omitFillMode; infer_instance

instance (a : Animation) (s : String) : Decidable (omitPlayState a s) := by
  unfold omitPlayState; infer_instance

/-- The print behaviour C5 amended to the code: when the name is `none`
nothing follows it; otherwise the remaining slots are printed in the order
duration, timing-function, delay, iteration-count, direction, fill-mode,
play-state, each slot left out exactly when its omission condition holds. -/
def amendedPrintC5 (a : Animation) : List Tok :=
  match a.name with
  | .none => AnimationName.toToks .none
  | nm =>
      let s := nm.text
      nm.toToks ++
      (if omitDuration a then [] else [a.duration.toTok]) ++
      (if omitTimingFunction a s then [] else [a.timingFunction.toTok]) ++
      (if omitDelay a then [] else [a.delay.toTok]) ++
      (if omitIterationCount a s then [] else [a.iterationCount.toTok]) ++
      (if omitDirection a s then [] else [a.direction.toTok]) ++
      (if omitFillMode a s then [] else [a.fillMode.toTok]) ++
      (if omitPlayState a s then [] else [a.playState.toTok])

/-- Flip an omission-style conditional into a print-style conditional. -/
theorem if_omit_flip {x : List Tok} {p q : Prop} [Decidable p] [Decidable q]
    (h : p ↔ ¬ q) : (if p then x else []) = (if q then [] else x) := by
  by_cases hq : q <;> simp [hq, h]

theorem omit_seg_eq_nil {t : Tok} {p : Prop} [Decidable p] :
    (if p then ([] : List Tok) else [t]) = [] ↔ p := by
  by_cases h : p <;> simp [h]

theorem append7_eq_self_iff (l r1 r2 r3 r4 r5 r6 r7 : List Tok) :
    l ++ r1 ++ r2 ++ r3 ++ r4 ++ r5 ++ r6 ++ r7 = l ↔
      r1 = [] ∧ r2 = [] ∧ r3 = [] ∧ r4 = [] ∧ r5 = [] ∧ r6 = [] ∧ r7 = [] := by
  constructor
  · intro h
    have hlen := congrArg List.length h
    simp only [List.length_append] at hlen
    refine ⟨List.length_eq_zero.mp (by omega), List.length_eq_zero.mp (by omega),
      List.length_eq_zero.mp (by omega), List.length_eq_zero.mp (by omega),
      List.length_eq_zero.mp (by omega), List.length_eq_zero.mp (by omega),
      List.length_eq_zero.mp (by omega)⟩
  · rintro ⟨e1, e2, e3, e4, e5, e6, e7⟩
    simp [e1, e2, e3, e4, e5, e6, e7]

/-- C5 (counterexample): at name `a` with a 1-second delay and every other
slot at its default, the code prints `a 0s 1s` — the default duration is
force-printed before the delay, and the delay is printed right after the
timing-function position — whereas the claimed order and elision rule
print `a 1s`. -/
theorem animation_print_order_counterexample :
    Animation.toToks ⟨.ident "a", .seconds 0, .ease, .number 1, .normal, .running,
        .seconds 1, .none⟩
      = [Tok.ident "a", Tok.dim (.seconds 0), Tok.dim (.seconds 1)] ∧
    claimedPrintC5 ⟨.ident "a", .seconds 0, .ease, .number 1, .normal, .running,
        .seconds 1, .none⟩
      = [Tok.ident "a", Tok.dim (.seconds 1)] ∧
    Animation.toToks ⟨.ident "a", .seconds 0, .ease, .number 1, .normal, .running,
        .seconds 1, .none⟩
      ≠ claimedPrintC5 ⟨.ident "a", .seconds 0, .ease, .number 1, .normal, .running,
        .seconds 1, .none⟩ := by
  decide

/-- C5 (amended): `to_css` prints the name first; when the name is `none`
nothing else is printed; otherwise the remaining slots follow left-to-right
in the order duration, timing-function, delay, iteration-count, direction,
fill-mode, play-state, each omitted exactly when its omission condition
holds (duration: both duration and delay zero; timing-function: equal to
`ease` or the equivalent cubic bezier with no easing-keyword collision;
delay: zero; iteration-count: equal to 1 and name not literally
`infinite`; direction, fill-mode, play-state: default with no keyword
collision); and nothing at all is printed after the name exactly when the
name is `none` or every omission condition holds. -/
theorem animation_print_order_amended (a : Animation) :
    Animation.toToks a = amendedPrintC5 a ∧
    (Animation.toToks a = a.name.toToks ↔
      (a.name = .none ∨
        (omitDuration a ∧ omitTimingFunction a a.name.text ∧ omitDelay a ∧
         omitIterationCount a a.name.text ∧ omitDirection a a.name.text ∧
         omitFillMode a a.name.text ∧ omitPlayState a a.name.text))) := by
  have flip1 : (a.duration.isZero = false ∨ a.delay.isZero = false) ↔ ¬ omitDuration a := by
    unfold omitDuration
    cases h1 : a.duration.isZero <;> cases h2 : a.delay.isZero <;> simp
  have flip2 : ∀ s, ((a.timingFunction ≠ .ease ∧
      a.timingFunction ≠ .cubicBezier (1/4) (1/10) (1/4) 1) ∨
      EasingFunction.isIdentStr s = true) ↔ ¬ omitTimingFunction a s := by
    intro s
    unfold omitTimingFunction
    cases h : EasingFunction.isIdentStr s <;> simp
  have flip3 : (a.delay.isZero = false) ↔ ¬ omitDelay a := by
    unfold omitDelay
    cases h : a.delay.isZero <;> simp
  have flip4 : ∀ s, (a.iterationCount ≠ .number 1 ∨ s = "infinite") ↔
      ¬ omitIterationCount a s := by
    intro s
    unfold omitIterationCount
    tauto
  have flip5 : ∀ s, (a.direction ≠ .normal ∨
      (AnimationDirection.parseString s).isSome = true) ↔ ¬ omitDirection a s := by
    intro s
    unfold omitDirection
    cases h : (AnimationDirection.parseString s).isSome <;> simp
  have flip6 : ∀ s, (a.fillMode ≠ .none ∨
      (AnimationFillMode.parseString s).isSome = true) ↔ ¬ omitFillMode a s := by
    intro s
    unfold omitFillMode
    cases h : (AnimationFillMode.parseString s).isSome <;> simp
  have flip7 : ∀ s, (a.playState ≠ .running ∨
      (AnimationPlayState.parseString s).isSome = true) ↔ ¬ omitPlayState a s := by
    intro s
    unfold omitPlayState
    cases h : (AnimationPlayState.parseString s).isSome <;> simp
  have hmain : Animation.toToks a = amendedPrintC5 a := by
    cases hn : a.name with
    | none =>
        simp [Animation.toToks, amendedPrintC5, hn]
    | ident s =>
        simp only [Animation.toToks, amendedPrintC5, hn, Animation.tailToks,
          AnimationName.text]
        rw [if_omit_flip (flip1), if_omit_flip (flip2 s), if_omit_flip (flip3),
          if_omit_flip (flip4 s), if_omit_flip (flip5 s), if_omit_flip (flip6 s),
          if_omit_flip (flip7 s)]
        simp [List.append_assoc]
    | custom s =>
        simp only [Animation.toToks, amendedPrintC5, hn, Animation.tailToks,
          AnimationName.text]
        rw [if_omit_flip (flip1), if_omit_flip (flip2 s), if_omit_flip (flip3),
          if_omit_flip (flip4 s), if_omit_flip (flip5 s), if_omit_flip (flip6 s),
          if_omit_flip (flip7 s)]
        simp [List.append_assoc]
  refine ⟨hmain, ?_⟩
  rw [hmain]
  cases hn : a.name with
  | none => simp [amendedPrintC5, AnimationName.toToks, hn]
  | ident s =>
      simp only [amendedPrintC5, hn, AnimationName.text]
      rw [append7_eq_self_iff]
      simp only [omit_seg_eq_nil]
      simp
  | custom s =>
      simp only [amendedPrintC5, hn, AnimationName.text]
      rw [append7_eq_self_iff]
      simp only [omit_seg_eq_nil]
      simp

/- ============ C6: collision guards; C10: duration printing ============ -/

/-- C6 (counterexample): the name `Infinite` parses as a legal
iteration-count value (keyword matching in the grammar is ASCII
case-insensitive), yet with the count left at its default the code prints
only `Infinite`: the guard at src line 268 compares the name byte-for-byte
with `infinite`, not against the slot's grammar, so the count is not
force-printed and the claim's "whenever the name's literal text parses as
a legal value of that slot's grammar" fails. -/
theorem animation_collision_guard_counterexample :
    (parseIterationCountTok [Tok.ident "Infinite"]).isSome = true ∧
    Animation.toToks ⟨.ident "Infinite", .seconds 0, .ease, .number 1, .normal,
        .running, .seconds 0, .none⟩ = [Tok.ident "Infinite"] ∧
    Tok.num 1 ∉ Animation.toToks ⟨.ident "Infinite", .seconds 0, .ease, .number 1,
        .normal, .running, .seconds 0, .none⟩ := by
  decide

/-- C6 (amended): for an identifier or custom-string name with text `s`,
each skippable slot is force-printed (even at its default) when its own
guard fires, and the guards are evaluated independently per slot: the
iteration count whenever `s` is byte-for-byte `infinite`, the timing
function whenever `s` is an easing keyword, and direction, fill-mode and
play-state whenever `s` parses as that slot's keyword (ASCII
case-insensitively); in particular name `infinite` with all other slots at
default prints `infinite 1`. -/
theorem animation_collision_guard_amended (a : Animation) (s : String)
    (h : a.name = .ident s ∨ a.name = .custom s) :
    (s = "infinite" → a.iterationCount.toTok ∈ a.toToks) ∧
    (EasingFunction.isIdentStr s = true → a.timingFunction.toTok ∈ a.toToks) ∧
    ((AnimationDirection.parseString s).isSome = true → a.direction.toTok ∈ a.toToks) ∧
    ((AnimationFillMode.parseString s).isSome = true → a.fillMode.toTok ∈ a.toToks) ∧
    ((AnimationPlayState.parseString s).isSome = true → a.playState.toTok ∈ a.toToks) ∧
    Animation.toToks ⟨.ident "infinite", .seconds 0, .ease, .number 1, .normal,
        .running, .seconds 0, .none⟩ = [Tok.ident "infinite", Tok.num 1] := by
  refine ⟨?_, ?_, ?_, ?_, ?_, by decide⟩ <;>
    (intro hg; rcases h with h | h <;>
      simp [Animation.toToks, h, Animation.tailToks, hg, List.mem_append])

/-- C6 witness: with name `infinite` the default count `1` is printed. -/
theorem animation_collision_guard_amended_witness :
    AnimationIterationCount.toTok (.number 1) ∈
      Animation.toToks ⟨.ident "infinite", .seconds 0, .ease, .number 1, .normal,
        .running, .seconds 0, .none⟩ :=
  (animation_collision_guard_amended
    ⟨.ident "infinite", .seconds 0, .ease, .number 1, .normal, .running,
      .seconds 0, .none⟩ "infinite" (Or.inl rfl)).1 rfl

theorem name_toToks_no_dim (nm : AnimationName) (t : Time) :
    Tok.dim t ∉ nm.toToks := by
  cases nm with
  | none => simp [AnimationName.toToks]
  | ident s => simp [AnimationName.toToks]
  | custom s =>
      simp only [AnimationName.toToks]
      split_ifs <;> simp

theorem easing_toTok_ne_dim (e : EasingFunction) (t : Time) :
    e.toTok ≠ Tok.dim t := by
  cases e <;> simp [EasingFunction.toTok]

theorem iter_toTok_ne_dim (c : AnimationIterationCount) (t : Time) :
    c.toTok ≠ Tok.dim t := by
  cases c <;> simp [AnimationIterationCount.toTok]

theorem dir_toTok_ne_dim (d : AnimationDirection) (t : Time) :
    d.toTok ≠ Tok.dim t := by
  cases d <;> simp [AnimationDirection.toTok]

theorem fill_toTok_ne_dim (f : AnimationFillMode) (t : Time) :
    f.toTok ≠ Tok.dim t := by
  cases f <;> simp [AnimationFillMode.toTok]

theorem play_toTok_ne_dim (p : AnimationPlayState) (t : Time) :
    p.toTok ≠ Tok.dim t := by
  cases p <;> simp [AnimationPlayState.toTok]

theorem not_mem_ite_singleton {x y : Tok} {p : Prop} [Decidable p] (hxy : x ≠ y) :
    x ∉ (if p then [y] else []) := by
  split_ifs <;> simp [hxy]

/-- With duration and delay both zero, no dimension token occurs in the
printed tail. -/
theorem tail_no_dim (a : Animation) (s : String) (t : Time)
    (h1 : a.duration.isZero = true) (h2 : a.delay.isZero = true) :
    Tok.dim t ∉ a.tailToks s := by
  intro hm
  simp only [Animation.tailToks, List.mem_append] at hm
  rcases hm with ((((((hm | hm) | hm) | hm) | hm) | hm) | hm)
  · simp [h1, h2] at hm
  · exact not_mem_ite_singleton (Ne.symm (easing_toTok_ne_dim _ _)) hm
  · simp [h2] at hm
  · exact not_mem_ite_singleton (Ne.symm (iter_toTok_ne_dim _ _)) hm
  · exact not_mem_ite_singleton (Ne.symm (dir_toTok_ne_dim _ _)) hm
  · exact not_mem_ite_singleton (Ne.symm (fill_toTok_ne_dim _ _)) hm
  · exact not_mem_ite_singleton (Ne.symm (play_toTok_ne_dim _ _)) hm

/-- C10: for an identifier or custom-string name, the duration's token
appears in the printed output exactly when the duration is non-zero or the
delay is non-zero (src lines 250-253 and 289-292): the duration is
force-printed at its default whenever a non-zero delay follows, and is
omitted only when both are zero. -/
theorem animation_duration_printed_iff (a : Animation) (s : String)
    (h : a.name = .ident s ∨ a.name = .custom s) :
    Tok.dim a.duration ∈ a.toToks ↔
      (a.duration.isZero = false ∨ a.delay.isZero = false) := by
  by_cases hc : a.duration.isZero = false ∨ a.delay.isZero = false
  · rcases h with h | h <;>
      simp [Animation.toToks, h, Animation.tailToks, hc, List.mem_append, Time.toTok]
  · have h1 : a.duration.isZero = true := by
      cases hz : a.duration.isZero
      · exact absurd (Or.inl hz) hc
      · rfl
    have h2 : a.delay.isZero = true := by
      cases hz : a.delay.isZero
      · exact absurd (Or.inr hz) hc
      · rfl
    rcases h with h | h <;>
      (simp only [Animation.toToks, h, List.mem_append]
       constructor
       · rintro (hm | hm)
         · exact absurd hm (name_toToks_no_dim _ _)
         · exact absurd hm (tail_no_dim _ _ _ h1 h2)
       · intro hf
         rcases hf with hf | hf
         · rw [h1] at hf
           simp at hf
         · rw [h2] at hf
           simp at hf)

/-- C10 witness: duration `2s` with zero delay is printed. -/
theorem animation_duration_printed_iff_witness :
    Tok.dim (Time.seconds 2) ∈
        Animation.toToks ⟨.ident "x", .seconds 2, .ease, .number 1, .normal,
          .running, .seconds 0, .none⟩ ↔
      ((Time.seconds 2).isZero = false ∨ (Time.seconds 0).isZero = false) :=
  animation_duration_printed_iff
    ⟨.ident "x", .seconds 2, .ease, .number 1, .normal, .running,
      .seconds 0, .none⟩ "x" (Or.inl rfl)

/- ============ C8, C9: unparsed passthrough and frame condition ============ -/

/-- C8: an `Unparsed` property whose id is in the animation family makes
`handle_property` flush all accumulated state into the output and then
pass the property through annotated by the vendor-prefix expansion for the
configured targets (src lines 443-446); it is never merged, and the call
returns true. -/
theorem handleProperty_unparsed_animation (st : AnimationHandler)
    (dest : List Property) (u : UnparsedProperty)
    (h : isAnimationProperty u.propertyId = true) :
    st.handleProperty (.unparsed u) dest =
      (true, (st.flush).1,
        (dest ++ (st.flush).2) ++
          [Property.unparsed (u.getPrefixed st.targets .animation)]) := by
  have hu : st.handleProperty (.unparsed u) dest =
      if isAnimationProperty u.propertyId = true then
        (true, (st.flush).1,
          (dest ++ (st.flush).2) ++
            [Property.unparsed (u.getPrefixed st.targets .animation)])
      else (false, st, dest) := rfl
  rw [hu, if_pos h]

/-- C8 witness. -/
theorem handleProperty_unparsed_animation_witness :
    (AnimationHandler.new Option.none).handleProperty
        (.unparsed ⟨.animationName vpWebKit, 7⟩) [] =
      (true, ((AnimationHandler.new Option.none).flush).1,
        (([] : List Property) ++ ((AnimationHandler.new Option.none).flush).2) ++
          [Property.unparsed ((⟨.animationName vpWebKit, 7⟩ : UnparsedProperty).getPrefixed
            (AnimationHandler.new Option.none).targets .animation)]) :=
  handleProperty_unparsed_animation (AnimationHandler.new Option.none) []
    ⟨.animationName vpWebKit, 7⟩ rfl

/-- C9: a property that is neither an animation-family longhand, nor the
`animation` shorthand, nor an `Unparsed` property with an animation-family
id, is refused: `handle_property` returns false and leaves both the
accumulator state and the output list untouched (src lines 443-448). -/
theorem handleProperty_non_animation (st : AnimationHandler) (dest : List Property) :
    (∀ n, st.handleProperty (.other n) dest = (false, st, dest)) ∧
    (∀ u, isAnimationProperty u.propertyId = false →
      st.handleProperty (.unparsed u) dest = (false, st, dest)) := by
  constructor
  · intro n
    rfl
  · intro u h
    have hu : st.handleProperty (.unparsed u) dest =
        if isAnimationProperty u.propertyId = true then
          (true, (st.flush).1,
            (dest ++ (st.flush).2) ++
              [Property.unparsed (u.getPrefixed st.targets .animation)])
        else (false, st, dest) := rfl
    rw [hu, if_neg (by simp [h])]

/-- C9 witness. -/
theorem handleProperty_non_animation_witness :
    (AnimationHandler.new Option.none).handleProperty (.other 3) []
        = (false, AnimationHandler.new Option.none, []) ∧
    (AnimationHandler.new Option.none).handleProperty
        (.unparsed ⟨.other 5, 2⟩) [] = (false, AnimationHandler.new Option.none, []) :=
  ⟨(handleProperty_non_animation (AnimationHandler.new Option.none) []).1 3,
   (handleProperty_non_animation (AnimationHandler.new Option.none) []).2 ⟨.other 5, 2⟩ rfl⟩

/- ============ C3: per-slot conflict check ============ -/

/-- An animation-family longhand with its value sequence. -/
inductive AnimLonghand where
  | name (v : List AnimationName)
  | duration (v : List Time)
  | timingFunction (v : List EasingFunction)
  | iterationCount (v : List AnimationIterationCount)
  | direction (v : List AnimationDirection)
  | playState (v : List AnimationPlayState)
  | delay (v : List Time)
  | fillMode (v : List AnimationFillMode)
deriving DecidableEq, Repr

def AnimLonghand.toProperty : AnimLonghand → VendorPrefix → Property
  | .name v, vp => .animationName v vp
  | .duration v, vp => .animationDuration v vp
  | .timingFunction v, vp => .animationTimingFunction v vp
  | .iterationCount v, vp => .animationIterationCount v vp
  | .direction v, vp => .animationDirection v vp
  | .playState v, vp => .animationPlayState v vp
  | .delay v, vp => .animationDelay v vp
  | .fillMode v, vp => .animationFillMode v vp

/-- A slot value, with the slot it belongs to. -/
inductive SlotVal where
  | names (v : List AnimationName)
  | durations (v : List Time)
  | timingFunctions (v : List EasingFunction)
  | iterationCounts (v : List AnimationIterationCount)
  | directions (v : List AnimationDirection)
  | playStates (v : List AnimationPlayState)
  | delays (v : List Time)
  | fillModes (v : List AnimationFillMode)
deriving DecidableEq, Repr

def AnimLonghand.slotVal : AnimLonghand → SlotVal
  | .name v => .names v
  | .duration v => .durations v
  | .timingFunction v => .timingFunctions v
  | .iterationCount v => .iterationCounts v
  | .direction v => .directions v
  | .playState v => .playStates v
  | .delay v => .delays v
  | .fillMode v => .fillModes v

/-- The accumulated state of the slot a longhand addresses. -/
def AnimationHandler.slotOf (st : AnimationHandler) :
    AnimLonghand → Option (SlotVal × VendorPrefix)
  | .name _ => st.names.map (fun x => (SlotVal.names x.1, x.2))
  | .duration _ => st.durations.map (fun x => (SlotVal.durations x.1, x.2))
  | .timingFunction _ => st.timingFunctions.map (fun x => (SlotVal.timingFunctions x.1, x.2))
  | .iterationCount _ => st.iterationCounts.map (fun x => (SlotVal.iterationCounts x.1, x.2))
  | .direction _ => st.directions.map (fun x => (SlotVal.directions x.1, x.2))
  | .playState _ => st.playStates.map (fun x => (SlotVal.playStates x.1, x.2))
  | .delay _ => st.delays.map (fun x => (SlotVal.delays x.1, x.2))
  | .fillMode _ => st.fillModes.map (fun x => (SlotVal.fillModes x.1, x.2))

/-- The conflict condition of claim C3: the slot already holds a value
different from the incoming one, under a prefix set that does not contain
the incoming prefixes. -/
def slotConflictB (st : AnimationHandler) (lh : AnimLonghand) (vp : VendorPrefix) : Bool :=
  match st.slotOf lh with
  | some (v0, pfxs) => decide (v0 ≠ lh.slotVal) && !(pfxs.contains vp)
  | Option.none => false

/-- The accumulated prefix set of a slot (empty when unset). -/
def slotPfx (st : AnimationHandler) (lh : AnimLonghand) : VendorPrefix :=
  match st.slotOf lh with
  | some (_, pfxs) => pfxs
  | Option.none => VendorPrefix.empty

theorem flush_fst_of_hasAny (st : AnimationHandler) (h : st.hasAny = true) :
    (st.flush).1 = st.cleared := by
  simp [AnimationHandler.flush, h]

theorem conflictB_name (st : AnimationHandler) (v : List AnimationName) (vp : VendorPrefix) :
    slotConflictB st (.name v) vp = maybeFlushCond st.names v vp := by
  rcases hn : st.names with _ | ⟨v0, pfxs⟩ <;>
    simp [slotConflictB, AnimationHandler.slotOf, AnimLonghand.slotVal,
      maybeFlushCond, hn]

theorem conflictB_duration (st : AnimationHandler) (v : List Time) (vp : VendorPrefix) :
    slotConflictB st (.duration v) vp = maybeFlushCond st.durations v vp := by
  rcases hn : st.durations with _ | ⟨v0, pfxs⟩ <;>
    simp [slotConflictB, AnimationHandler.slotOf, AnimLonghand.slotVal,
      maybeFlushCond, hn]

theorem conflictB_timingFunction (st : AnimationHandler) (v : List EasingFunction)
    (vp : VendorPrefix) :
    slotConflictB st (.timingFunction v) vp = maybeFlushCond st.timingFunctions v vp := by
  rcases hn : st.timingFunctions with _ | ⟨v0, pfxs⟩ <;>
    simp [slotConflictB, AnimationHandler.slotOf, AnimLonghand.slotVal,
      maybeFlushCond, hn]

theorem conflictB_iterationCount (st : AnimationHandler)
    (v : List AnimationIterationCount) (vp : VendorPrefix) :
    slotConflictB st (.iterationCount v) vp = maybeFlushCond st.iterationCounts v vp := by
  rcases hn : st.iterationCounts with _ | ⟨v0, pfxs⟩ <;>
    simp [slotConflictB, AnimationHandler.slotOf, AnimLonghand.slotVal,
      maybeFlushCond, hn]

theorem conflictB_direction (st : AnimationHandler) (v : List AnimationDirection)
    (vp : VendorPrefix) :
    slotConflictB st (.direction v) vp = maybeFlushCond st.directions v vp := by
  rcases hn : st.directions with _ | ⟨v0, pfxs⟩ <;>
    simp [slotConflictB, AnimationHandler.slotOf, AnimLonghand.slotVal,
      maybeFlushCond, hn]

theorem conflictB_playState (st : AnimationHandler) (v : List AnimationPlayState)
    (vp : VendorPrefix) :
    slotConflictB st (.playState v) vp = maybeFlushCond st.playStates v vp := by
  rcases hn : st.playStates with _ | ⟨v0, pfxs⟩ <;>
    simp [slotConflictB, AnimationHandler.slotOf, AnimLonghand.slotVal,
      maybeFlushCond, hn]

theorem conflictB_delay (st : AnimationHandler) (v : List Time) (vp : VendorPrefix) :
    slotConflictB st (.delay v) vp = maybeFlushCond st.delays v vp := by
  rcases hn : st.delays with _ | ⟨v0, pfxs⟩ <;>
    simp [slotConflictB, AnimationHandler.slotOf, AnimLonghand.slotVal,
      maybeFlushCond, hn]

theorem conflictB_fillMode (st : AnimationHandler) (v : List AnimationFillMode)
    (vp : VendorPrefix) :
    slotConflictB st (.fillMode v) vp = maybeFlushCond st.fillModes v vp := by
  rcases hn : st.fillModes with _ | ⟨v0, pfxs⟩ <;>
    simp [slotConflictB, AnimationHandler.slotOf, AnimLonghand.slotVal,
      maybeFlushCond, hn]

/-- Scenario of C3: `-webkit-animation-name: a`. -/
def scenarioC3a : Bool × AnimationHandler × List Property :=
  (AnimationHandler.new Option.none).handleProperty
    (.animationName [.ident "a"] vpWebKit) []

/-- Then `animation-name: b` (different value, new prefix). -/
def scenarioC3b : Bool × AnimationHandler × List Property :=
  scenarioC3a.2.1.handleProperty (.animationName [.ident "b"] vpNone) scenarioC3a.2.2

/-- Then `-webkit-animation-duration: 1s`. -/
def scenarioC3c : Bool × AnimationHandler × List Property :=
  scenarioC3b.2.1.handleProperty (.animationDuration [.seconds 1] vpWebKit) scenarioC3b.2.2

def scenarioC3out : List Property := (scenarioC3c.2.1.finalize scenarioC3c.2.2).2

/-- C3: a `handle_property` call delivering an animation longhand with
value `v` and prefix set `vp` returns true and: when the addressed slot
already holds a different value under a prefix set not containing `vp`,
the accumulator flushes all pending state to the output before the slot is
re-populated with `(v, vp)`; otherwise no flush occurs, the output is
untouched, and the slot is overwritten with `v` while its prefix set is
unioned with `vp` (src lines 373-398).  In particular the sequence
`-webkit-animation-name: a; animation-name: b; -webkit-animation-duration:
1s` emits two separate `animation-name` declarations in original order. -/
theorem handleProperty_longhand_conflict (st : AnimationHandler)
    (dest : List Property) (lh : AnimLonghand) (vp : VendorPrefix)
    (hinv : st.hasAny = false → st = AnimationHandler.new st.targets) :
    (st.handleProperty (lh.toProperty vp) dest).1 = true ∧
    (slotConflictB st lh vp = true →
      (st.handleProperty (lh.toProperty vp) dest).2.2 = dest ++ (st.flush).2 ∧
      ((st.handleProperty (lh.toProperty vp) dest).2.1).slotOf lh
        = some (lh.slotVal, vp)) ∧
    (slotConflictB st lh vp = false →
      (st.handleProperty (lh.toProperty vp) dest).2.2 = dest ∧
      ((st.handleProperty (lh.toProperty vp) dest).2.1).slotOf lh
        = some (lh.slotVal, (slotPfx st lh).union vp)) ∧
    scenarioC3out =
      [Property.animationName [.ident "a"] vpWebKit,
       Property.animationName [.ident "b"] vpNone,
       Property.animationDuration [.seconds 1] vpWebKit] := by
  have hscen : scenarioC3out =
      [Property.animationName [.ident "a"] vpWebKit,
       Property.animationName [.ident "b"] vpNone,
       Property.animationDuration [.seconds 1] vpWebKit] := by
    decide
  cases lh with
  | name v =>
    have he : st.handleProperty ((AnimLonghand.name v).toProperty vp) dest
        = (true, applyNames st dest v vp) := rfl
    refine ⟨by rw [he], ?_, ?_, hscen⟩
    · intro hc
      rw [conflictB_name] at hc
      have hA : st.hasAny = true := by
        cases hb : st.hasAny
        · rw [hinv hb] at hc
          simp [AnimationHandler.new, maybeFlushCond] at hc
        · rfl
      have hf1 : (st.flush).1 = st.cleared := flush_fst_of_hasAny st hA
      rw [he]
      refine ⟨?_, ?_⟩
      · simp [applyNames, mfNames, hc, AnimationHandler.flushInto]
      · simp [applyNames, mfNames, hc, AnimationHandler.flushInto, hf1,
          AnimationHandler.slotOf, AnimationHandler.cleared, AnimationHandler.new,
          updatedSlot, AnimLonghand.slotVal]
    · intro hc
      rw [conflictB_name] at hc
      rw [he]
      refine ⟨?_, ?_⟩
      · simp [applyNames, mfNames, hc]
      · rcases hn : st.names with _ | ⟨v0, pfxs⟩ <;>
          (rw [hn] at hc
           simp [applyNames, mfNames, hc, AnimationHandler.slotOf, updatedSlot, hn,
             AnimLonghand.slotVal, slotPfx, VendorPrefix.empty, VendorPrefix.union])
  | duration v =>
    have he : st.handleProperty ((AnimLonghand.duration v).toProperty vp) dest
        = (true, applyDurations st dest v vp) := rfl
    refine ⟨by rw [he], ?_, ?_, hscen⟩
    · intro hc
      rw [conflictB_duration] at hc
      have hA : st.hasAny = true := by
        cases hb : st.hasAny
        · rw [hinv hb] at hc
          simp [AnimationHandler.new, maybeFlushCond] at hc
        · rfl
      have hf1 : (st.flush).1 = st.cleared := flush_fst_of_hasAny st hA
      rw [he]
      refine ⟨?_, ?_⟩
      · simp [applyDurations, mfDurations, hc, AnimationHandler.flushInto]
      · simp [applyDurations, mfDurations, hc, AnimationHandler.flushInto, hf1,
          AnimationHandler.slotOf, AnimationHandler.cleared, AnimationHandler.new,
          updatedSlot, AnimLonghand.slotVal]
    · intro hc
      rw [conflictB_duration] at hc
      rw [he]
      refine ⟨?_, ?_⟩
      · simp [applyDurations, mfDurations, hc]
      · rcases hn : st.durations with _ | ⟨v0, pfxs⟩ <;>
          (rw [hn] at hc
           simp [applyDurations, mfDurations, hc, AnimationHandler.slotOf, updatedSlot, hn,
             AnimLonghand.slotVal, slotPfx, VendorPrefix.empty, VendorPrefix.union])
  | timingFunction v =>
    have he : st.handleProperty ((AnimLonghand.timingFunction v).toProperty vp) dest
        = (true, applyTimingFunctions st dest v vp) := rfl
    refine ⟨by rw [he], ?_, ?_, hscen⟩
    · intro hc
      rw [conflictB_timingFunction] at hc
      have hA : st.hasAny = true := by
        cases hb : st.hasAny
        · rw [hinv hb] at hc
          simp [AnimationHandler.new, maybeFlushCond] at hc
        · rfl
      have hf1 : (st.flush).1 = st.cleared := flush_fst_of_hasAny st hA
      rw [he]
      refine ⟨?_, ?_⟩
      · simp [applyTimingFunctions, mfTimingFunctions, hc, AnimationHandler.flushInto]
      · simp [applyTimingFunctions, mfTimingFunctions, hc, AnimationHandler.flushInto, hf1,
          AnimationHandler.slotOf, AnimationHandler.cleared, AnimationHandler.new,
          updatedSlot, AnimLonghand.slotVal]
    · intro hc
      rw [conflictB_timingFunction] at hc
      rw [he]
      refine ⟨?_, ?_⟩
      · simp [applyTimingFunctions, mfTimingFunctions, hc]
      · rcases hn : st.timingFunctions with _ | ⟨v0, pfxs⟩ <;>
          (rw [hn] at hc
           simp [applyTimingFunctions, mfTimingFunctions, hc, AnimationHandler.slotOf, updatedSlot, hn,
             AnimLonghand.slotVal, slotPfx, VendorPrefix.empty, VendorPrefix.union])
  | iterationCount v =>
    have he : st.handleProperty ((AnimLonghand.iterationCount v).toProperty vp) dest
        = (true, applyIterationCounts st dest v vp) := rfl
    refine ⟨by rw [he], ?_, ?_, hscen⟩
    · intro hc
      rw [conflictB_iterationCount] at hc
      have hA : st.hasAny = true := by
        cases hb : st.hasAny
        · rw [hinv hb] at hc
          simp [AnimationHandler.new, maybeFlushCond] at hc
        · rfl
      have hf1 : (st.flush).1 = st.cleared := flush_fst_of_hasAny st hA
      rw [he]
      refine ⟨?_, ?_⟩
      · simp [applyIterationCounts, mfIterationCounts, hc, AnimationHandler.flushInto]
      · simp [applyIterationCounts, mfIterationCounts, hc, AnimationHandler.flushInto, hf1,
          AnimationHandler.slotOf, AnimationHandler.cleared, AnimationHandler.new,
          updatedSlot, AnimLonghand.slotVal]
    · intro hc
      rw [conflictB_iterationCount] at hc
      rw [he]
      refine ⟨?_, ?_⟩
      · simp [applyIterationCounts, mfIterationCounts, hc]
      · rcases hn : st.iterationCounts with _ | ⟨v0, pfxs⟩ <;>
          (rw [hn] at hc
           simp [applyIterationCounts, mfIterationCounts, hc, AnimationHandler.slotOf, updatedSlot, hn,
             AnimLonghand.slotVal, slotPfx, VendorPrefix.empty, VendorPrefix.union])
  | direction v =>
    have he : st.handleProperty ((AnimLonghand.direction v).toProperty vp) dest
        = (true, applyDirections st dest v vp) := rfl
    refine ⟨by rw [he], ?_, ?_, hscen⟩
    · intro hc
      rw [conflictB_direction] at hc
      have hA : st.hasAny = true := by
        cases hb : st.hasAny
        · rw [hinv hb] at hc
          simp [AnimationHandler.new, maybeFlushCond] at hc
        · rfl
      have hf1 : (st.flush).1 = st.cleared := flush_fst_of_hasAny st hA
      rw [he]
      refine ⟨?_, ?_⟩
      · simp [applyDirections, mfDirections, hc, AnimationHandler.flushInto]
      · simp [applyDirections, mfDirections, hc, AnimationHandler.flushInto, hf1,
          AnimationHandler.slotOf, AnimationHandler.cleared, AnimationHandler.new,
          updatedSlot, AnimLonghand.slotVal]
    · intro hc
      rw [conflictB_direction] at hc
      rw [he]
      refine ⟨?_, ?_⟩
      · simp [applyDirections, mfDirections, hc]
      · rcases hn : st.directions with _ | ⟨v0, pfxs⟩ <;>
          (rw [hn] at hc
           simp [applyDirections, mfDirections, hc, AnimationHandler.slotOf, updatedSlot, hn,
             AnimLonghand.slotVal, slotPfx, VendorPrefix.empty, VendorPrefix.union])
  | playState v =>
    have he : st.handleProperty ((AnimLonghand.playState v).toProperty vp) dest
        = (true, applyPlayStates st dest v vp) := rfl
    refine ⟨by rw [he], ?_, ?_, hscen⟩
    · intro hc
      rw [conflictB_playState] at hc
      have hA : st.hasAny = true := by
        cases hb : st.hasAny
        · rw [hinv hb] at hc
          simp [AnimationHandler.new, maybeFlushCond] at hc
        · rfl
      have hf1 : (st.flush).1 = st.cleared := flush_fst_of_hasAny st hA
      rw [he]
      refine ⟨?_, ?_⟩
      · simp [applyPlayStates, mfPlayStates, hc, AnimationHandler.flushInto]
      · simp [applyPlayStates, mfPlayStates, hc, AnimationHandler.flushInto, hf1,
          AnimationHandler.slotOf, AnimationHandler.cleared, AnimationHandler.new,
          updatedSlot, AnimLonghand.slotVal]
    · intro hc
      rw [conflictB_playState] at hc
      rw [he]
      refine ⟨?_, ?_⟩
      · simp [applyPlayStates, mfPlayStates, hc]
      · rcases hn : st.playStates with _ | ⟨v0, pfxs⟩ <;>
          (rw [hn] at hc
           simp [applyPlayStates, mfPlayStates, hc, AnimationHandler.slotOf, updatedSlot, hn,
             AnimLonghand.slotVal, slotPfx, VendorPrefix.empty, VendorPrefix.union])
  | delay v =>
    have he : st.handleProperty ((AnimLonghand.delay v).toProperty vp) dest
        = (true, applyDelays st dest v vp) := rfl
    refine ⟨by rw [he], ?_, ?_, hscen⟩
    · intro hc
      rw [conflictB_delay] at hc
      have hA : st.hasAny = true := by
        cases hb : st.hasAny
        · rw [hinv hb] at hc
          simp [AnimationHandler.new, maybeFlushCond] at hc
        · rfl
      have hf1 : (st.flush).1 = st.cleared := flush_fst_of_hasAny st hA
      rw [he]
      refine ⟨?_, ?_⟩
      · simp [applyDelays, mfDelays, hc, AnimationHandler.flushInto]
      · simp [applyDelays, mfDelays, hc, AnimationHandler.flushInto, hf1,
          AnimationHandler.slotOf, AnimationHandler.cleared, AnimationHandler.new,
          updatedSlot, AnimLonghand.slotVal]
    · intro hc
      rw [conflictB_delay] at hc
      rw [he]
      refine ⟨?_, ?_⟩
      · simp [applyDelays, mfDelays, hc]
      · rcases hn : st.delays with _ | ⟨v0, pfxs⟩ <;>
          (rw [hn] at hc
           simp [applyDelays, mfDelays, hc, AnimationHandler.slotOf, updatedSlot, hn,
             AnimLonghand.slotVal, slotPfx, VendorPrefix.empty, VendorPrefix.union])
  | fillMode v =>
    have he : st.handleProperty ((AnimLonghand.fillMode v).toProperty vp) dest
        = (true, applyFillModes st dest v vp) := rfl
    refine ⟨by rw [he], ?_, ?_, hscen⟩
    · intro hc
      rw [conflictB_fillMode] at hc
      have hA : st.hasAny = true := by
        cases hb : st.hasAny
        · rw [hinv hb] at hc
          simp [AnimationHandler.new, maybeFlushCond] at hc
        · rfl
      have hf1 : (st.flush).1 = st.cleared := flush_fst_of_hasAny st hA
      rw [he]
      refine ⟨?_, ?_⟩
      · simp [applyFillModes, mfFillModes, hc, AnimationHandler.flushInto]
      · simp [applyFillModes, mfFillModes, hc, AnimationHandler.flushInto, hf1,
          AnimationHandler.slotOf, AnimationHandler.cleared, AnimationHandler.new,
          updatedSlot, AnimLonghand.slotVal]
    · intro hc
      rw [conflictB_fillMode] at hc
      rw [he]
      refine ⟨?_, ?_⟩
      · simp [applyFillModes, mfFillModes, hc]
      · rcases hn : st.fillModes with _ | ⟨v0, pfxs⟩ <;>
          (rw [hn] at hc
           simp [applyFillModes, mfFillModes, hc, AnimationHandler.slotOf, updatedSlot, hn,
             AnimLonghand.slotVal, slotPfx, VendorPrefix.empty, VendorPrefix.union])

/-- A state with a pending unprefixed `animation-name: a`. -/
def c3WitnessState : AnimationHandler :=
  { AnimationHandler.new Option.none with
      names := some ([.ident "a"], vpNone), hasAny := true }

/-- C3 witness: an incoming `-webkit-animation-name: b` conflicts and
flushes. -/
theorem handleProperty_longhand_conflict_witness :
    slotConflictB c3WitnessState (.name [.ident "b"]) vpWebKit = true ∧
    ((c3WitnessState.handleProperty
        ((AnimLonghand.name [.ident "b"]).toProperty vpWebKit) []).2.2
        = [] ++ (c3WitnessState.flush).2 ∧
      ((c3WitnessState.handleProperty
          ((AnimLonghand.name [.ident "b"]).toProperty vpWebKit) []).2.1).slotOf
          (.name [.ident "b"])
        = some ((AnimLonghand.name [.ident "b"]).slotVal, vpWebKit)) :=
  ⟨by decide,
   (handleProperty_longhand_conflict c3WitnessState [] (.name [.ident "b"]) vpWebKit
      (by
        intro h
        simp [c3WitnessState, AnimationHandler.new] at h)).2.1 (by decide)⟩

/- ============ C2: the flush/merge procedure ============ -/

/-- The merge condition of claim C2: all eight slots set, every slot's
value-sequence length equal to the name slot's, and a non-empty
intersection of the eight prefix sets. -/
def mergeCondB (st : AnimationHandler) : Bool :=
  match st.names, st.durations, st.timingFunctions, st.iterationCounts,
        st.directions, st.playStates, st.delays, st.fillModes with
  | some (ns, nvp), some (ds, dvp), some (tfs, tvp), some (ics, ivp),
    some (dirs, dirvp), some (pss, pvp), some (des, devp), some (fms, fvp) =>
      decide ((slotIntersection nvp dvp tvp ivp dirvp pvp devp fvp).isEmpty = false ∧
        ds.length = ns.length ∧ tfs.length = ns.length ∧ ics.length = ns.length ∧
        dirs.length = ns.length ∧ pss.length = ns.length ∧ des.length = ns.length ∧
        fms.length = ns.length)
  | _, _, _, _, _, _, _, _ => false

/-- Per-slot emission in canonical group order, as claim C2 states it for
the no-merge path. -/
def plainOutSpec (st : AnimationHandler) : List Property :=
  emitSlot st.names st.targets .animationName Property.animationName ++
  emitSlot st.durations st.targets .animationDuration Property.animationDuration ++
  emitSlot st.timingFunctions st.targets .animationTimingFunction
    Property.animationTimingFunction ++
  emitSlot st.iterationCounts st.targets .animationIterationCount
    Property.animationIterationCount ++
  emitSlot st.directions st.targets .animationDirection Property.animationDirection ++
  emitSlot st.playStates st.targets .animationPlayState Property.animationPlayState ++
  emitSlot st.delays st.targets .animationDelay Property.animationDelay ++
  emitSlot st.fillModes st.targets .animationFillMode Property.animationFillMode

/-- The merged output of claim C2: one `Animation` per comma-separated
instance, zipped index-wise, tagged with the intersection (expanded to
browser-target prefixes when it contains the unprefixed bit), followed by
the standalone longhands of every slot whose prefix set minus the
intersection is non-empty, in canonical order (the merge drains the value
sequences, so those longhands carry empty sequences). -/
def mergedOutSpec (st : AnimationHandler) : List Property :=
  match st.names, st.durations, st.timingFunctions, st.iterationCounts,
        st.directions, st.playStates, st.delays, st.fillModes with
  | some (ns, nvp), some (ds, dvp), some (tfs, tvp), some (ics, ivp),
    some (dirs, dirvp), some (pss, pvp), some (des, devp), some (fms, fvp) =>
      let inter := slotIntersection nvp dvp tvp ivp dirvp pvp devp fvp
      Property.animation (zipAnimations ns ds tfs ics dirs pss des fms)
          (expandedPrefix st.targets .animation inter) ::
        (emitSlot (some (([] : List AnimationName), nvp.remove inter)) st.targets
            .animationName Property.animationName ++
         emitSlot (some (([] : List Time), dvp.remove inter)) st.targets
            .animationDuration Property.animationDuration ++
         emitSlot (some (([] : List EasingFunction), tvp.remove inter)) st.targets
            .animationTimingFunction Property.animationTimingFunction ++
         emitSlot (some (([] : List AnimationIterationCount), ivp.remove inter)) st.targets
            .animationIterationCount Property.animationIterationCount ++
         emitSlot (some (([] : List AnimationDirection), dirvp.remove inter)) st.targets
            .animationDirection Property.animationDirection ++
         emitSlot (some (([] : List AnimationPlayState), pvp.remove inter)) st.targets
            .animationPlayState Property.animationPlayState ++
         emitSlot (some (([] : List Time), devp.remove inter)) st.targets
            .animationDelay Property.animationDelay ++
         emitSlot (some (([] : List AnimationFillMode), fvp.remove inter)) st.targets
            .animationFillMode Property.animationFillMode)
  | _, _, _, _, _, _, _, _ => []

theorem mergeCondB_all_some (st : AnimationHandler)
    (ns : List AnimationName) (nvp : VendorPrefix) (ds : List Time) (dvp : VendorPrefix)
    (tfs : List EasingFunction) (tvp : VendorPrefix)
    (ics : List AnimationIterationCount) (ivp : VendorPrefix)
    (dirs : List AnimationDirection) (dirvp : VendorPrefix)
    (pss : List AnimationPlayState) (pvp : VendorPrefix)
    (des : List Time) (devp : VendorPrefix)
    (fms : List AnimationFillMode) (fvp : VendorPrefix)
    (hn : st.names = some (ns, nvp)) (hd : st.durations = some (ds, dvp))
    (ht : st.timingFunctions = some (tfs, tvp)) (hi : st.iterationCounts = some (ics, ivp))
    (hdir : st.directions = some (dirs, dirvp)) (hp : st.playStates = some (pss, pvp))
    (hde : st.delays = some (des, devp)) (hf : st.fillModes = some (fms, fvp)) :
    mergeCondB st =
      decide ((slotIntersection nvp dvp tvp ivp dirvp pvp devp fvp).isEmpty = false ∧
        ds.length = ns.length ∧ tfs.length = ns.length ∧ ics.length = ns.length ∧
        dirs.length = ns.length ∧ pss.length = ns.length ∧ des.length = ns.length ∧
        fms.length = ns.length) := by
  simp only [mergeCondB, hn, hd, ht, hi, hdir, hp, hde, hf]

theorem not_mem_emitSlot_of_ne {α : Type} (slot : Option (List α × VendorPrefix))
    (t : Option Browsers) (f : Feature) (mk : List α → VendorPrefix → Property)
    (hmk : ∀ vl p v pp, mk vl p ≠ Property.animation v pp)
    (v : List Animation) (pp : VendorPrefix) :
    Property.animation v pp ∉ emitSlot slot t f mk := by
  intro hm
  rcases slot with _ | ⟨vl, pfx⟩
  · simp [emitSlot] at hm
  · simp only [emitSlot] at hm
    split_ifs at hm
    · simp at hm
      exact hmk _ _ v pp hm.symm
    · simp at hm

theorem not_mem_plainOutSpec (st : AnimationHandler) (v : List Animation)
    (pp : VendorPrefix) : Property.animation v pp ∉ plainOutSpec st := by
  intro hm
  simp only [plainOutSpec, List.mem_append] at hm
  rcases hm with ((((((hm | hm) | hm) | hm) | hm) | hm) | hm) | hm <;>
    exact not_mem_emitSlot_of_ne _ _ _ _ (by intro vl p vv pq h; cases h) v pp hm

theorem flushEmitted_of_merge (st : AnimationHandler) (hmc : mergeCondB st = true) :
    flushEmitted st = mergedOutSpec st := by
  rcases hn : st.names with _ | ⟨ns, nvp⟩
  · simp [mergeCondB, hn] at hmc
  rcases hd : st.durations with _ | ⟨ds, dvp⟩
  · simp [mergeCondB, hn, hd] at hmc
  rcases ht : st.timingFunctions with _ | ⟨tfs, tvp⟩
  · simp [mergeCondB, hn, hd, ht] at hmc
  rcases hi : st.iterationCounts with _ | ⟨ics, ivp⟩
  · simp [mergeCondB, hn, hd, ht, hi] at hmc
  rcases hdir : st.directions with _ | ⟨dirs, dirvp⟩
  · simp [mergeCondB, hn, hd, ht, hi, hdir] at hmc
  rcases hp : st.playStates with _ | ⟨pss, pvp⟩
  · simp [mergeCondB, hn, hd, ht, hi, hdir, hp] at hmc
  rcases hde : st.delays with _ | ⟨des, devp⟩
  · simp [mergeCondB, hn, hd, ht, hi, hdir, hp, hde] at hmc
  rcases hf : st.fillModes with _ | ⟨fms, fvp⟩
  · simp [mergeCondB, hn, hd, ht, hi, hdir, hp, hde, hf] at hmc
  rw [mergeCondB_all_some st ns nvp ds dvp tfs tvp ics ivp dirs dirvp pss pvp
    des devp fms fvp hn hd ht hi hdir hp hde hf] at hmc
  have hco := of_decide_eq_true hmc
  simp only [flushEmitted, flushTaken, hn, hd, ht, hi, hdir, hp, hde, hf,
    mergedOutSpec]
  rw [if_pos hco]
  simp [List.append_assoc]

theorem flushEmitted_of_no_merge (st : AnimationHandler) (hmc : mergeCondB st = false) :
    flushEmitted st = plainOutSpec st := by
  rcases hn : st.names with _ | ⟨ns, nvp⟩
  · simp [flushEmitted, flushTaken, plainOutSpec, hn, List.append_assoc]
  rcases hd : st.durations with _ | ⟨ds, dvp⟩
  · simp [flushEmitted, flushTaken, plainOutSpec, hn, hd, List.append_assoc]
  rcases ht : st.timingFunctions with _ | ⟨tfs, tvp⟩
  · simp [flushEmitted, flushTaken, plainOutSpec, hn, hd, ht, List.append_assoc]
  rcases hi : st.iterationCounts with _ | ⟨ics, ivp⟩
  · simp [flushEmitted, flushTaken, plainOutSpec, hn, hd, ht, hi, List.append_assoc]
  rcases hdir : st.directions with _ | ⟨dirs, dirvp⟩
  · simp [flushEmitted, flushTaken, plainOutSpec, hn, hd, ht, hi, hdir,
      List.append_assoc]
  rcases hp : st.playStates with _ | ⟨pss, pvp⟩
  · simp [flushEmitted, flushTaken, plainOutSpec, hn, hd, ht, hi, hdir, hp,
      List.append_assoc]
  rcases hde : st.delays with _ | ⟨des, devp⟩
  · simp [flushEmitted, flushTaken, plainOutSpec, hn, hd, ht, hi, hdir, hp, hde,
      List.append_assoc]
  rcases hf : st.fillModes with _ | ⟨fms, fvp⟩
  · simp [flushEmitted, flushTaken, plainOutSpec, hn, hd, ht, hi, hdir, hp, hde, hf,
      List.append_assoc]
  rw [mergeCondB_all_some st ns nvp ds dvp tfs tvp ics ivp dirs dirvp pss pvp
    des devp fms fvp hn hd ht hi hdir hp hde hf] at hmc
  have hco := of_decide_eq_false hmc
  simp only [flushEmitted, flushTaken, hn, hd, ht, hi, hdir, hp, hde, hf,
    plainOutSpec]
  rw [if_neg hco]
  simp [hn, hd, ht, hi, hdir, hp, hde, hf, List.append_assoc]

/-- C2: for a flush with pending state, a merged `animation` shorthand
appears in the output exactly when all eight slots are set with equal
instance counts and a non-empty prefix intersection; when it does, the
output is exactly the merged declaration followed by the leftover
longhands with the intersection subtracted; otherwise the output is the
plain per-slot emission; and in either case all slot state is cleared
afterwards. -/
theorem animationHandler_flush_spec (st : AnimationHandler) (h : st.hasAny = true) :
    ((∃ v p, Property.animation v p ∈ (st.flush).2) ↔ mergeCondB st = true) ∧
    (mergeCondB st = true → (st.flush).2 = mergedOutSpec st) ∧
    (mergeCondB st = false → (st.flush).2 = plainOutSpec st) ∧
    (st.flush).1 = AnimationHandler.new st.targets := by
  have hsnd : (st.flush).2 = flushEmitted st := by
    simp [AnimationHandler.flush, h]
  have hfst : (st.flush).1 = AnimationHandler.new st.targets := by
    simp [AnimationHandler.flush, h, AnimationHandler.cleared]
  refine ⟨?_, ?_, ?_, hfst⟩
  · constructor
    · rintro ⟨v, p, hm⟩
      cases hmc : mergeCondB st
      · rw [hsnd, flushEmitted_of_no_merge st hmc] at hm
        exact absurd hm (not_mem_plainOutSpec st v p)
      · rfl
    · intro hmc
      rw [hsnd, flushEmitted_of_merge st hmc]
      rcases hn : st.names with _ | ⟨ns, nvp⟩
      · simp [mergeCondB, hn] at hmc
      rcases hd : st.durations with _ | ⟨ds, dvp⟩
      · simp [mergeCondB, hn, hd] at hmc
      rcases ht : st.timingFunctions with _ | ⟨tfs, tvp⟩
      · simp [mergeCondB, hn, hd, ht] at hmc
      rcases hi : st.iterationCounts with _ | ⟨ics, ivp⟩
      · simp [mergeCondB, hn, hd, ht, hi] at hmc
      rcases hdir : st.directions with _ | ⟨dirs, dirvp⟩
      · simp [mergeCondB, hn, hd, ht, hi, hdir] at hmc
      rcases hp : st.playStates with _ | ⟨pss, pvp⟩
      · simp [mergeCondB, hn, hd, ht, hi, hdir, hp] at hmc
      rcases hde : st.delays with _ | ⟨des, devp⟩
      · simp [mergeCondB, hn, hd, ht, hi, hdir, hp, hde] at hmc
      rcases hf : st.fillModes with _ | ⟨fms, fvp⟩
      · simp [mergeCondB, hn, hd, ht, hi, hdir, hp, hde, hf] at hmc
      refine ⟨zipAnimations ns ds tfs ics dirs pss des fms,
        expandedPrefix st.targets .animation
          (slotIntersection nvp dvp tvp ivp dirvp pvp devp fvp), ?_⟩
      simp [mergedOutSpec, hn, hd, ht, hi, hdir, hp, hde, hf]
  · intro hmc
    rw [hsnd]
    exact flushEmitted_of_merge st hmc
  · intro hmc
    rw [hsnd]
    exact flushEmitted_of_no_merge st hmc

/-- A fully-populated, single-instance, unprefixed accumulator state. -/
def c2WitnessState : AnimationHandler :=
  { AnimationHandler.new Option.none with
      names := some ([.ident "foo"], vpNone),
      durations := some ([.seconds 1], vpNone),
      timingFunctions := some ([.linear], vpNone),
      iterationCounts := some ([.number 3], vpNone),
      directions := some ([.normal], vpNone),
      playStates := some ([.running], vpNone),
      delays := some ([.seconds 0], vpNone),
      fillModes := some ([.none], vpNone),
      hasAny := true }

/-- C2 witness. -/
theorem animationHandler_flush_spec_witness :
    ((∃ v p, Property.animation v p ∈ (c2WitnessState.flush).2) ↔
      mergeCondB c2WitnessState = true) ∧
    (mergeCondB c2WitnessState = true →
      (c2WitnessState.flush).2 = mergedOutSpec c2WitnessState) ∧
    (mergeCondB c2WitnessState = false →
      (c2WitnessState.flush).2 = plainOutSpec c2WitnessState) ∧
    (c2WitnessState.flush).1 = AnimationHandler.new c2WitnessState.targets :=
  animationHandler_flush_spec c2WitnessState rfl

/- ============ C4: shorthand vs. longhand decomposition ============ -/

/-- Feeding the eight component longhands of a shorthand value to
`handle_property` one by one, in slot order, with the same prefix set. -/
def longhandSeq (st : AnimationHandler) (dest : List Property) (val : List Animation)
    (vp : VendorPrefix) : AnimationHandler × List Property :=
  let r1 := st.handleProperty (.animationName (val.map (fun b => b.name)) vp) dest
  let r2 := r1.2.1.handleProperty
    (.animationDuration (val.map (fun b => b.duration)) vp) r1.2.2
  let r3 := r2.2.1.handleProperty
    (.animationTimingFunction (val.map (fun b => b.timingFunction)) vp) r2.2.2
  let r4 := r3.2.1.handleProperty
    (.animationIterationCount (val.map (fun b => b.iterationCount)) vp) r3.2.2
  let r5 := r4.2.1.handleProperty
    (.animationDirection (val.map (fun b => b.direction)) vp) r4.2.2
  let r6 := r5.2.1.handleProperty
    (.animationPlayState (val.map (fun b => b.playState)) vp) r5.2.2
  let r7 := r6.2.1.handleProperty (.animationDelay (val.map (fun b => b.delay)) vp) r6.2.2
  let r8 := r7.2.1.handleProperty
    (.animationFillMode (val.map (fun b => b.fillMode)) vp) r7.2.2
  r8.2

/-- A state with pending unprefixed `animation-name: a` and
`animation-duration: 1s`. -/
def c4State : AnimationHandler :=
  { AnimationHandler.new Option.none with
      names := some ([.ident "a"], vpNone),
      durations := some ([.seconds 1], vpNone),
      hasAny := true }

/-- The incoming shorthand instance: name `a` (same as accumulated),
duration `2s` (different). -/
def c4Anim : Animation :=
  ⟨.ident "a", .seconds 2, .ease, .number 1, .normal, .running, .seconds 0, .none⟩

/-- C4 (counterexample): on a state holding `animation-name: a` and
`animation-duration: 1s` (both unprefixed), the `-webkit-` prefixed
shorthand `a 2s ...` runs all eight conflict checks against the pre-call
state and flushes before any slot update, emitting `animation-name: a`
with prefix set {unprefixed}; the longhand sequence first absorbs the
name (unioning `-webkit-` into the name slot) and only flushes at the
duration conflict, emitting `animation-name: a` with prefix set
{unprefixed, webkit}.  The two emitted outputs differ, refuting the
claimed equivalence. -/
theorem handleProperty_shorthand_decompose_counterexample :
    (c4State.handleProperty (.animation [c4Anim] vpWebKit) []).2.2
      = [Property.animationName [.ident "a"] vpNone,
         Property.animationDuration [.seconds 1] vpNone] ∧
    (longhandSeq c4State [] [c4Anim] vpWebKit).2
      = [Property.animationName [.ident "a"] ⟨true, true, false, false, false⟩,
         Property.animationDuration [.seconds 1] vpNone] ∧
    (c4State.handleProperty (.animation [c4Anim] vpWebKit) []).2.2
      ≠ (longhandSeq c4State [] [c4Anim] vpWebKit).2 := by
  decide

/-- C4 (amended): the shorthand call produces the same emitted output and
final accumulator state as the longhand sequence provided no slot other
than the first (the name slot) has a firing conflict check against the
pre-call state; in particular this holds whenever the accumulator is
empty.  (In general the two differ: the shorthand runs all eight checks
before any update, the sequence interleaves them.) -/
theorem handleProperty_shorthand_decompose_amended (st : AnimationHandler)
    (dest : List Property) (val : List Animation) (vp : VendorPrefix)
    (h2 : maybeFlushCond st.durations (val.map (fun b => b.duration)) vp = false)
    (h3 : maybeFlushCond st.timingFunctions (val.map (fun b => b.timingFunction)) vp = false)
    (h4 : maybeFlushCond st.iterationCounts (val.map (fun b => b.iterationCount)) vp = false)
    (h5 : maybeFlushCond st.directions (val.map (fun b => b.direction)) vp = false)
    (h6 : maybeFlushCond st.playStates (val.map (fun b => b.playState)) vp = false)
    (h7 : maybeFlushCond st.delays (val.map (fun b => b.delay)) vp = false)
    (h8 : maybeFlushCond st.fillModes (val.map (fun b => b.fillMode)) vp = false) :
    (st.handleProperty (.animation val vp) dest).2 = longhandSeq st dest val vp := by
  cases hcn : maybeFlushCond st.names (val.map (fun b => b.name)) vp with
  | false =>
      simp [AnimationHandler.handleProperty, longhandSeq,
        applyNames, applyDurations, applyTimingFunctions, applyIterationCounts,
        applyDirections, applyPlayStates, applyDelays, applyFillModes,
        mfNames, mfDurations, mfTimingFunctions, mfIterationCounts,
        mfDirections, mfPlayStates, mfDelays, mfFillModes,
        hcn, h2, h3, h4, h5, h6, h7, h8]
  | true =>
      cases hb : st.hasAny with
      | true =>
          have hmf_none : ∀ {α : Type} [inst : DecidableEq α] (v : List α)
              (vq : VendorPrefix), maybeFlushCond Option.none v vq = false := by
            intro α inst v vq
            simp [maybeFlushCond]
          simp [AnimationHandler.handleProperty, longhandSeq,
            applyNames, applyDurations, applyTimingFunctions, applyIterationCounts,
            applyDirections, applyPlayStates, applyDelays, applyFillModes,
            mfNames, mfDurations, mfTimingFunctions, mfIterationCounts,
            mfDirections, mfPlayStates, mfDelays, mfFillModes,
            AnimationHandler.flushInto, AnimationHandler.flush, hcn, hb,
            AnimationHandler.cleared, AnimationHandler.new, hmf_none, updatedSlot]
      | false =>
          simp [AnimationHandler.handleProperty, longhandSeq,
            applyNames, applyDurations, applyTimingFunctions, applyIterationCounts,
            applyDirections, applyPlayStates, applyDelays, applyFillModes,
            mfNames, mfDurations, mfTimingFunctions, mfIterationCounts,
            mfDirections, mfPlayStates, mfDelays, mfFillModes,
            AnimationHandler.flushInto, AnimationHandler.flush, hcn, hb,
            h2, h3, h4, h5, h6, h7, h8]

/-- C4 witness: on an empty accumulator no conflict check fires and the
shorthand call coincides with its longhand decomposition. -/
theorem handleProperty_shorthand_decompose_amended_witness :
    ((AnimationHandler.new Option.none).handleProperty
        (.animation [c4Anim] vpWebKit) []).2
      = longhandSeq (AnimationHandler.new Option.none) [] [c4Anim] vpWebKit :=
  handleProperty_shorthand_decompose_amended (AnimationHandler.new Option.none) []
    [c4Anim] vpWebKit rfl rfl rfl rfl rfl rfl rfl

/- ============ C7: keyframes color fallbacks ============ -/

/-- C7: `get_fallbacks` accumulates the union of required fallback kinds
over all custom/unparsed declarations, removes the lowest member, and
returns the emitted duplicates and the resulting rule: a P3-gated
`@supports` clone first exactly when the remaining set contains P3, a
LAB-gated clone second exactly when the remaining set contains LAB or the
lowest member is non-empty and different from LAB, and the original rule
rewritten to the lowest representation exactly when the lowest member is
non-empty (otherwise the rule's declarations are left unchanged). -/
theorem keyframes_getFallbacks_spec {V : Type} (gn : V → ColorFallbackKind)
    (gf : V → ColorFallbackKind → V) (rule : KeyframesRule V) :
    (KeyframesRule.getFallbacks gn gf rule).2 =
      (if ((kfNecessaryFallbacks gn rule).remove
            (kfNecessaryFallbacks gn rule).lowest).contains cfkP3 = true
        then [KeyframesRule.getFallbackRule gf rule cfkP3] else []) ++
      (if (((kfNecessaryFallbacks gn rule).remove
              (kfNecessaryFallbacks gn rule).lowest).contains cfkLAB = true ∨
            ((kfNecessaryFallbacks gn rule).lowest.isEmpty = false ∧
              (kfNecessaryFallbacks gn rule).lowest ≠ cfkLAB))
        then [KeyframesRule.getFallbackRule gf rule cfkLAB] else []) ∧
    (KeyframesRule.getFallbacks gn gf rule).1 =
      (if (kfNecessaryFallbacks gn rule).lowest.isEmpty = false
        then kfRewriteLowest gf rule (kfNecessaryFallbacks gn rule).lowest
        else rule) := by
  constructor
  · simp only [KeyframesRule.getFallbacks]
    by_cases hp3 : ((kfNecessaryFallbacks gn rule).remove
        (kfNecessaryFallbacks gn rule).lowest).contains cfkP3 = true <;>
      by_cases hlab : (((kfNecessaryFallbacks gn rule).remove
            (kfNecessaryFallbacks gn rule).lowest).contains cfkLAB = true ∨
          ((kfNecessaryFallbacks gn rule).lowest.isEmpty = false ∧
            (kfNecessaryFallbacks gn rule).lowest ≠ cfkLAB)) <;>
        simp [hp3, hlab]
  · simp only [KeyframesRule.getFallbacks]

end AnimationSpec
